import Mathlib

/-!
Verification of the `voxel` volume library (`voxel/volume.py`, `voxel/filters.py`).

The development shallow-embeds the `Volume` class and its spatial operations over
exact rational arithmetic:

* scalars are `ℚ` (torch float arithmetic is modelled exactly; the fixed absolute
  tolerance `1e-4` used by the library's geometry comparisons is the exact
  rational `1/10000`);
* the 4D feature tensor of shape `(C, W, H, D)` is a rectangular nested list;
* the acquisition geometry is a 3x3 linear part plus translation, anchored to a
  (possibly constructed-as-negative, hence `ℤ`-valued) base shape;
* every operation that can raise a Python exception returns `Except VErr _`.

The `AcquisitionGeometry` / `AffineMatrix` / slicing-utilities modules are external
collaborators of the translated source; the definitions that stand in for them are
modelled from the spec's behavioural contract and marked as such in their doc
comments.  Everything else is translated directly from `voxel/volume.py`.
-/

/-! ### Scalar helpers -/

/-- Absolute tolerance used by all geometry comparisons in the source
(`atol=1e-4, rtol=0`). -/
def tol : ℚ := 1 / 10000

/-- Torch `allclose` on scalars with `rtol=0`: `|a - b| <= atol`, written without
`abs` so that it evaluates. -/
def qclose (a b : ℚ) : Prop := -tol ≤ a - b ∧ a - b ≤ tol

instance (a b : ℚ) : Decidable (qclose a b) := by unfold qclose; infer_instance

/-- Torch `round`: round half to even (`nearbyint` semantics). -/
def rround (q : ℚ) : ℤ :=
  let f := ⌊q⌋
  if q - f < 1/2 then f
  else if (1/2 : ℚ) < q - f then f + 1
  else if f % 2 = 0 then f else f + 1

/-- Integer square root by bounded search (kernel-computable stand-in for the
floating square root; exact on perfect squares). -/
def natSqrtB (n : ℕ) : ℕ := Nat.findGreatest (fun k => k * k ≤ n) n

/-- Square root of a nonnegative rational, exact whenever numerator and
denominator are perfect squares (all geometries exercised concretely in this
file have perfect-square column norms). -/
def ratSqrt (q : ℚ) : ℚ := (natSqrtB q.num.toNat : ℚ) / (natSqrtB q.den : ℚ)

/-! ### Vectors and affine matrices

`AffineMatrix` is an external collaborator; per the spec it is "a voxel-to-world
affine matrix (3x3 rotation/scale + translation)" supporting `inverse()`,
compose (`@`), and `transform(points)`.  The source reads its `tensor` as a 4x4
matrix whose last row is `(0,0,0,1)`; comparing `tensor[:, :3]` therefore
amounts to comparing the 3x3 linear parts, and `tensor[:3, -1]` is the
translation column. -/

structure Vec3 where
  x : ℚ
  y : ℚ
  z : ℚ
  deriving DecidableEq

structure IVec3 where
  x : ℤ
  y : ℤ
  z : ℤ
  deriving DecidableEq

def Vec3.zero : Vec3 := ⟨0, 0, 0⟩

def Vec3.add (u v : Vec3) : Vec3 := ⟨u.x + v.x, u.y + v.y, u.z + v.z⟩

def Vec3.sub (u v : Vec3) : Vec3 := ⟨u.x - v.x, u.y - v.y, u.z - v.z⟩

def Vec3.neg (u : Vec3) : Vec3 := ⟨-u.x, -u.y, -u.z⟩

/-- Componentwise division (torch broadcasting semantics; division by an exact
zero is modelled as `0`, which only arises for degenerate geometries). -/
def Vec3.div (u v : Vec3) : Vec3 := ⟨u.x / v.x, u.y / v.y, u.z / v.z⟩

def Vec3.mulc (u v : Vec3) : Vec3 := ⟨u.x * v.x, u.y * v.y, u.z * v.z⟩

/-- Torch `allclose` on 3-vectors. -/
def vclose (u v : Vec3) : Prop := qclose u.x v.x ∧ qclose u.y v.y ∧ qclose u.z v.z

instance (u v : Vec3) : Decidable (vclose u v) := by unfold vclose; infer_instance

/-- Torch `.round()` applied to a coordinate vector. -/
def vround (u : Vec3) : IVec3 := ⟨rround u.x, rround u.y, rround u.z⟩

def IVec3.toVec (d : IVec3) : Vec3 := ⟨(d.x : ℚ), (d.y : ℚ), (d.z : ℚ)⟩

def IVec3.add (u v : IVec3) : IVec3 := ⟨u.x + v.x, u.y + v.y, u.z + v.z⟩

def IVec3.sub (u v : IVec3) : IVec3 := ⟨u.x - v.x, u.y - v.y, u.z - v.z⟩

/-- Row-major 3x3 rational matrix. -/
structure Mat3 where
  m11 : ℚ
  m12 : ℚ
  m13 : ℚ
  m21 : ℚ
  m22 : ℚ
  m23 : ℚ
  m31 : ℚ
  m32 : ℚ
  m33 : ℚ
  deriving DecidableEq

def Mat3.id : Mat3 := ⟨1, 0, 0, 0, 1, 0, 0, 0, 1⟩

def Mat3.mulVec (A : Mat3) (v : Vec3) : Vec3 :=
  ⟨A.m11 * v.x + A.m12 * v.y + A.m13 * v.z,
   A.m21 * v.x + A.m22 * v.y + A.m23 * v.z,
   A.m31 * v.x + A.m32 * v.y + A.m33 * v.z⟩

def Mat3.mul (A B : Mat3) : Mat3 :=
  ⟨A.m11 * B.m11 + A.m12 * B.m21 + A.m13 * B.m31,
   A.m11 * B.m12 + A.m12 * B.m22 + A.m13 * B.m32,
   A.m11 * B.m13 + A.m12 * B.m23 + A.m13 * B.m33,
   A.m21 * B.m11 + A.m22 * B.m21 + A.m23 * B.m31,
   A.m21 * B.m12 + A.m22 * B.m22 + A.m23 * B.m32,
   A.m21 * B.m13 + A.m22 * B.m23 + A.m23 * B.m33,
   A.m31 * B.m11 + A.m32 * B.m21 + A.m33 * B.m31,
   A.m31 * B.m12 + A.m32 * B.m22 + A.m33 * B.m32,
   A.m31 * B.m13 + A.m32 * B.m23 + A.m33 * B.m33⟩

def Mat3.det (A : Mat3) : ℚ :=
  A.m11 * (A.m22 * A.m33 - A.m23 * A.m32)
  - A.m12 * (A.m21 * A.m33 - A.m23 * A.m31)
  + A.m13 * (A.m21 * A.m32 - A.m22 * A.m31)

/-- Classical adjugate of a 3x3 matrix. -/
def Mat3.adj (A : Mat3) : Mat3 :=
  ⟨A.m22 * A.m33 - A.m23 * A.m32,
   A.m13 * A.m32 - A.m12 * A.m33,
   A.m12 * A.m23 - A.m13 * A.m22,
   A.m23 * A.m31 - A.m21 * A.m33,
   A.m11 * A.m33 - A.m13 * A.m31,
   A.m13 * A.m21 - A.m11 * A.m23,
   A.m21 * A.m32 - A.m22 * A.m31,
   A.m12 * A.m31 - A.m11 * A.m32,
   A.m11 * A.m22 - A.m12 * A.m21⟩

def Mat3.smul (c : ℚ) (A : Mat3) : Mat3 :=
  ⟨c * A.m11, c * A.m12, c * A.m13,
   c * A.m21, c * A.m22, c * A.m23,
   c * A.m31, c * A.m32, c * A.m33⟩

/-- Matrix inverse; `none` models the `LinAlgError` torch raises when asked to
invert a singular matrix. -/
def Mat3.inv (A : Mat3) : Option Mat3 :=
  if A.det = 0 then none else some (Mat3.smul (1 / A.det) A.adj)

/-- Torch `allclose` on the 3x3 linear part (the source compares
`tensor[:, :3]`, whose constant bottom row `(0,0,0)` always matches). -/
def mclose (A B : Mat3) : Prop :=
  qclose A.m11 B.m11 ∧ qclose A.m12 B.m12 ∧ qclose A.m13 B.m13 ∧
  qclose A.m21 B.m21 ∧ qclose A.m22 B.m22 ∧ qclose A.m23 B.m23 ∧
  qclose A.m31 B.m31 ∧ qclose A.m32 B.m32 ∧ qclose A.m33 B.m33

instance (A B : Mat3) : Decidable (mclose A B) := by unfold mclose; infer_instance

/-- Affine voxel-to-world map: linear part plus translation column. -/
structure AffMat where
  A : Mat3
  t : Vec3
  deriving DecidableEq

/-- Modelled from the spec: `AffineMatrix` composition `@`
(`(M1 @ M2)(v) = M1(M2(v))`). -/
def AffMat.comp (M N : AffMat) : AffMat :=
  ⟨M.A.mul N.A, (M.A.mulVec N.t).add M.t⟩

/-- Modelled from the spec: `AffineMatrix.transform(points)` on a single point. -/
def AffMat.apply (M : AffMat) (p : Vec3) : Vec3 := (M.A.mulVec p).add M.t

/-- Modelled from the spec: `AffineMatrix.inverse()`; fails (as torch does) on a
singular linear part. -/
def AffMat.inv (M : AffMat) : Option AffMat :=
  match M.A.inv with
  | none => none
  | some Ai => some ⟨Ai, (Ai.mulVec M.t).neg⟩

/-! ### Acquisition geometry

Modelled from the spec: `AcquisitionGeometry` is an external type bundling a
voxel-to-world affine matrix with the spatial shape it is anchored to, and
supporting `inverse()`, compose, `shift(delta, space)`, `scale(factor, space)`,
`transform(points)` and the `spacing` attribute.  The base shape is kept as an
`ℤ`-vector because the source can construct target geometries with arbitrary
integer shape arithmetic (e.g. `pad` with a large negative delta). -/

structure Geom where
  baseshape : IVec3
  mat : AffMat
  deriving DecidableEq

/-- Modelled from the spec: `shift(delta, space='voxel')` pre-translates the
voxel-to-world map, so the new map sends `v` to `M(v + delta)`. -/
def Geom.shiftVoxel (g : Geom) (d : Vec3) : Geom :=
  ⟨g.baseshape, ⟨g.mat.A, (g.mat.A.mulVec d).add g.mat.t⟩⟩

/-- Modelled from the spec: `scale(factor, space='voxel')` post-scales voxel
coordinates, multiplying each column of the linear part. -/
def Geom.scaleVoxel (g : Geom) (s : Vec3) : Geom :=
  ⟨g.baseshape,
   ⟨⟨g.mat.A.m11 * s.x, g.mat.A.m12 * s.y, g.mat.A.m13 * s.z,
     g.mat.A.m21 * s.x, g.mat.A.m22 * s.y, g.mat.A.m23 * s.z,
     g.mat.A.m31 * s.x, g.mat.A.m32 * s.y, g.mat.A.m33 * s.z⟩,
    g.mat.t⟩⟩

/-- Squared Euclidean norm of column `j` of the linear part. -/
def Geom.colNormSq (g : Geom) (j : Fin 3) : ℚ :=
  match j with
  | 0 => g.mat.A.m11 ^ 2 + g.mat.A.m21 ^ 2 + g.mat.A.m31 ^ 2
  | 1 => g.mat.A.m12 ^ 2 + g.mat.A.m22 ^ 2 + g.mat.A.m32 ^ 2
  | 2 => g.mat.A.m13 ^ 2 + g.mat.A.m23 ^ 2 + g.mat.A.m33 ^ 2

/-- Modelled from the spec: the `spacing` attribute — per-axis world units per
voxel, i.e. the Euclidean norms of the columns of the linear part. -/
def Geom.spacing (g : Geom) : Vec3 :=
  ⟨ratSqrt (g.colNormSq 0), ratSqrt (g.colNormSq 1), ratSqrt (g.colNormSq 2)⟩

/-! ### Tensor model

The feature tensor of shape `(C, W, H, D)` is a rectangular nested list of
rationals.  `dims` reads the shape off the nesting (for the empty tensor the
inner sizes degenerate to `0`, matching the absence of any data). -/

abbrev T1 := List ℚ
abbrev T2 := List T1
abbrev T3 := List T2
abbrev T4 := List T3

def tW (t : T4) : ℕ := (t.headD []).length
def tH (t : T4) : ℕ := ((t.headD []).headD []).length
def tD (t : T4) : ℕ := (((t.headD []).headD []).headD []).length

/-- Spatial shape `tensor.shape[1:]` as natural numbers. -/
def tdims (t : T4) : ℕ × ℕ × ℕ := (tW t, tH t, tD t)

/-- Spatial shape `tensor.shape[1:]` cast to the `ℤ`-vector world of geometry
base shapes. -/
def tbase (t : T4) : IVec3 := ⟨(tW t : ℤ), (tH t : ℤ), (tD t : ℤ)⟩

/-- Rectangularity: every channel has shape `(tW, tH, tD)`.  Python
tensors satisfy this by construction. -/
def Rect (t : T4) : Prop :=
  ∀ v ∈ t, v.length = tW t ∧
    ∀ p ∈ v, p.length = tH t ∧
      ∀ r ∈ p, r.length = tD t

instance (t : T4) : Decidable (Rect t) := by unfold Rect; infer_instance

/-- Flatten in row-major (torch `flatten`) order. -/
def tflat (t : T4) : List ℚ := (t.map (fun v => (v.map List.flatten).flatten)).flatten

def numel (t : T4) : ℕ := (tflat t).length

/-- Elementwise map. -/
def tmap (f : ℚ → ℚ) (t : T4) : T4 :=
  t.map (fun v => v.map (fun p => p.map (fun r => r.map f)))

/-- Elementwise binary map of two same-shape tensors (`zipWith` at each level;
torch would broadcast, but the source's elementwise operators are used here
only at equal shapes per the spec's "operand shape compatibility"). -/
def tzip (f : ℚ → ℚ → ℚ) (a b : T4) : T4 :=
  List.zipWith (fun v w =>
    List.zipWith (fun p q =>
      List.zipWith (fun r s => List.zipWith f r s) p q) v w) a b

/-- Tensor of zeros of shape `(c, w, h, d)`. -/
def tzeros (c w h d : ℕ) : T4 :=
  List.replicate c (List.replicate w (List.replicate h (List.replicate d (0 : ℚ))))

/-! ### Errors

Python exceptions raised by the translated code paths. -/

inductive VErr where
  /-- `ValueError`: geometry baseshape does not match the volume baseshape. -/
  | shape
  /-- `ValueError`: cropping would remove a spatial dimension, or an unknown
  cropping item type. -/
  | invalidCrop
  /-- `ValueError`: quantile outside `[0, 1]` or unsupported padding mode. -/
  | domain
  /-- `ValueError`: `negate=True` with `resample=False` in `transform`. -/
  | precondition
  /-- Torch `LinAlgError`: inverting a singular matrix. -/
  | singular
  /-- `ValueError`: nonzero bounds requested on an all-zero volume. -/
  | emptyNonzero
  /-- `AttributeError`: attribute missing on the object. -/
  | attribute
  /-- `IndexError`: integer index out of range. -/
  | index
  /-- Torch `RuntimeError`: reflection padding wider than the padded dimension. -/
  | badPad
  /-- Torch `RuntimeError`: any other runtime failure (empty reduction,
  non-positive slice step, shape-incompatible `view`, ...). -/
  | runtime
  deriving DecidableEq

/-! ### Slicing model

Modelled from the spec: the slicing-utilities module provides "conversions
between (start,stop,stride)-tuples and integer corner coordinate pairs, and
expansion of partial slicing tuples to full rank" with numpy indexing
semantics.  Corner coordinates are inclusive on both ends (so that the tight
nonzero bounding box of `crop_to_nonzero` round-trips through
`coordinates_to_slicing`). -/

inductive SliceItem where
  /-- A scalar integer index (collapses the axis). -/
  | idx (n : ℤ)
  /-- A python `slice(start, stop, step)`. -/
  | slc (start stop step : Option ℤ)
  /-- The `...` (Ellipsis) placeholder. -/
  | dots
  deriving DecidableEq

/-- The full slice `slice(None)`. -/
def SliceItem.all : SliceItem := .slc none none none

def SliceItem.isIdx : SliceItem → Bool
  | .idx _ => true
  | _ => false

/-- Step of a slicing item, defaulting to `1`. -/
def SliceItem.step : SliceItem → ℤ
  | .slc _ _ (some k) => k
  | _ => 1

/-- Modelled from the spec: `vx.slicing.expand_slicing` — numpy-style expansion
of a partial indexing tuple to the given rank (a single Ellipsis expands to the
missing full slices, otherwise full slices are appended). -/
def expandSlicing (items : List SliceItem) (rank : ℕ) : Except VErr (List SliceItem) :=
  let nd := (items.filter (fun i => i ≠ SliceItem.dots)).length
  if rank < nd then .error .invalidCrop
  else if 1 < (items.filter (fun i => i = SliceItem.dots)).length then .error .invalidCrop
  else if items.contains SliceItem.dots then
    .ok (items.flatMap (fun i =>
      if i = SliceItem.dots then List.replicate (rank - nd) SliceItem.all else [i]))
  else .ok (items ++ List.replicate (rank - nd) SliceItem.all)

/-- Python index resolution against an axis of length `n` (for a slice bound
with positive step): negative values count from the end, then the result is
clamped into `[0, n]`. -/
def resolveIdx (n : ℕ) (x : ℤ) : ℕ :=
  (min (max (if x < 0 then x + (n : ℤ) else x) 0) (n : ℤ)).toNat

/-- Resolved `(start, stop)` of a python slice over an axis of length `n`. -/
def resolveBounds (n : ℕ) (a b : Option ℤ) : ℕ × ℕ :=
  (match a with
   | none => 0
   | some x => resolveIdx n x,
   match b with
   | none => n
   | some x => resolveIdx n x)

/-- Contiguous crop: elements `a, a+1, ..., a+len-1`. -/
def cropList (a len : ℕ) (l : List α) : List α := (l.drop a).take len

/-- Keep every `s`-th element starting from the first. -/
def stepList (s : ℕ) (l : List α) : List α :=
  (l.enum.filter (fun p => p.1 % s = 0)).map Prod.snd

/-- Apply one (non-index) slicing item to a list. -/
def applySliceL (l : List α) : SliceItem → List α
  | .slc a b s =>
      let p := resolveBounds l.length a b
      stepList (s.getD 1).toNat (cropList p.1 (p.2 - p.1) l)
  | _ => l

/-- Apply a rank-4 expanded slicing tuple to a tensor (`self.tensor[slicing]`).
A scalar channel index removes the channel axis, which the `Volume`
constructor immediately re-adds (3D arrays are promoted to one channel); the
net effect modelled here is channel selection.  Torch rejects non-positive
steps, and the caller has already rejected spatial scalar indices. -/
def applySlicing (t : T4) (items : List SliceItem) : Except VErr T4 :=
  let i0 := items.getD 0 SliceItem.all
  let i1 := items.getD 1 SliceItem.all
  let i2 := items.getD 2 SliceItem.all
  let i3 := items.getD 3 SliceItem.all
  if i0.step ≤ 0 ∨ i1.step ≤ 0 ∨ i2.step ≤ 0 ∨ i3.step ≤ 0 then .error .runtime
  else if i1.isIdx ∨ i2.isIdx ∨ i3.isIdx then .error .invalidCrop
  else
    let chans : Except VErr T4 :=
      match i0 with
      | .idx c =>
          let c' := if c < 0 then c + (t.length : ℤ) else c
          if 0 ≤ c' ∧ c' < (t.length : ℤ) then .ok [t.getD c'.toNat []]
          else .error .index
      | it => .ok (applySliceL t it)
    match chans with
    | .error e => .error e
    | .ok t' =>
        .ok (t'.map (fun v =>
          (applySliceL v i1).map (fun p =>
            (applySliceL p i2).map (fun r => applySliceL r i3))))

/-- Modelled from the spec: `vx.slicing.slicing_to_coordinates` — normalize a
partial spatial slicing tuple to inclusive integer min/max corners plus an
optional stride (returned only when some step is non-trivial). -/
def slicingToCoordinates (items : List SliceItem) (shape : ℕ × ℕ × ℕ) :
    Except VErr (IVec3 × IVec3 × Option IVec3) :=
  match expandSlicing items 3 with
  | .error e => .error e
  | .ok l3 =>
    let a1 := l3.getD 0 SliceItem.all
    let a2 := l3.getD 1 SliceItem.all
    let a3 := l3.getD 2 SliceItem.all
    if a1.isIdx ∨ a2.isIdx ∨ a3.isIdx then .error .invalidCrop
    else if a1.step ≤ 0 ∨ a2.step ≤ 0 ∨ a3.step ≤ 0 then .error .runtime
    else
      let r := fun (it : SliceItem) (n : ℕ) =>
        match it with
        | .slc a b _ => resolveBounds n a b
        | _ => (0, n)
      let p1 := r a1 shape.1
      let p2 := r a2 shape.2.1
      let p3 := r a3 shape.2.2
      let minc : IVec3 := ⟨(p1.1 : ℤ), (p2.1 : ℤ), (p3.1 : ℤ)⟩
      let maxc : IVec3 := ⟨(p1.2 : ℤ) - 1, (p2.2 : ℤ) - 1, (p3.2 : ℤ) - 1⟩
      let stride : Option IVec3 :=
        if a1.step = 1 ∧ a2.step = 1 ∧ a3.step = 1 then none
        else some ⟨a1.step, a2.step, a3.step⟩
      .ok (minc, maxc, stride)

/-- Modelled from the spec: `vx.slicing.coordinates_to_slicing` — inclusive
corner coordinates back to a spatial slicing tuple. -/
def coordinatesToSlicing (minc maxc : IVec3) (stride : Option IVec3) : List SliceItem :=
  [.slc (some minc.x) (some (maxc.x + 1)) (stride.map (fun s => s.x)),
   .slc (some minc.y) (some (maxc.y + 1)) (stride.map (fun s => s.y)),
   .slc (some minc.z) (some (maxc.z + 1)) (stride.map (fun s => s.z))]

/-! ### Padding primitives (`torch.nn.functional.pad`) -/

/-- Internal padding vocabulary of `torch.nn.functional.pad`. -/
inductive PadMode where
  | constant
  | reflect
  | replicate
  deriving DecidableEq

/-- Elements prepended before a list when padding one axis. -/
def padBefore (mode : PadMode) (a : ℕ) (l : List α) (z : α) : List α :=
  match mode with
  | .constant => List.replicate a z
  | .replicate => List.replicate a (l.headD z)
  | .reflect => ((l.drop 1).take a).reverse

/-- Elements appended after a list when padding one axis. -/
def padAfter (mode : PadMode) (b : ℕ) (l : List α) (z : α) : List α :=
  match mode with
  | .constant => List.replicate b z
  | .replicate => List.replicate b (l.getLastD z)
  | .reflect => (l.dropLast.reverse).take b

/-- Pad one axis on both sides. -/
def padAxis (mode : PadMode) (a b : ℕ) (l : List α) (z : α) : List α :=
  padBefore mode a l z ++ l ++ padAfter mode b l z

/-- Spatial padding of a 4D tensor (channel axis untouched); the innermost
axis is padded first, exactly as `F.pad` consumes its reversed padding list.
`h` and `d` are the (H, D) extents of the input tensor, passed explicitly
because a torch tensor retains its true shape even when some axis is empty,
while an empty nested list does not. -/
def pad4 (t : T4) (mode : PadMode) (h d : ℕ) (aW bW aH bH aD bD : ℕ) : T4 :=
  let zrow : T1 := List.replicate (aD + d + bD) 0
  let zplane : T2 := List.replicate (aH + h + bH) zrow
  t.map (fun v =>
    padAxis mode aW bW
      (v.map (fun p =>
        padAxis mode aH bH (p.map (fun r => padAxis mode aD bD r 0)) zrow))
      zplane)

/-! ### Volume -/

/-- The `Volume` entity: a feature tensor of shape `(C, W, H, D)` together
with its acquisition geometry. -/
structure Volume where
  tensor : T4
  geometry : Geom
  deriving DecidableEq

/-- Construction (`Volume.__init__` / `Volume.new`): the geometry setter
raises a `ValueError` unless the geometry's anchored baseshape matches the
image base shape. -/
def mkVolume (t : T4) (g : Geom) : Except VErr Volume :=
  if g.baseshape = tbase t then .ok ⟨t, g⟩ else .error .shape

/-- Assignment through the `geometry` property setter. -/
def setGeometry (V : Volume) (g : Geom) : Except VErr Volume := mkVolume V.tensor g

/-- The geometry invariant: the anchored baseshape equals the spatial shape of
the data tensor (`tensor.shape[1:]`). -/
def Volume.wfGeo (V : Volume) : Prop := V.geometry.baseshape = tbase V.tensor

instance (V : Volume) : Decidable V.wfGeo := by unfold Volume.wfGeo; infer_instance

/-- Full well-formedness: the geometry invariant plus tensor rectangularity
(automatic for real torch tensors). -/
def Volume.wf (V : Volume) : Prop := V.wfGeo ∧ Rect V.tensor

instance (V : Volume) : Decidable V.wf := by unfold Volume.wf; infer_instance

def Volume.num_channels (V : Volume) : ℕ := V.tensor.length

/-! ### Interpolation modes and grid sampling -/

/-- Interpolation mode of the public resampling API. -/
inductive IMode where
  | linear
  | nearest
  deriving DecidableEq

/-- Public padding-mode vocabulary (`zeros`, `reflection`, `border`). -/
inductive PaddingMode where
  | zeros
  | reflection
  | border
  deriving DecidableEq

/-- Coordinate normalization of `normalize_grid_points`:
`points / (baseshape - 1) * 2 - 1` (align-corners convention). -/
def normCoord (n : ℕ) (x : ℚ) : ℚ := x / ((n : ℚ) - 1) * 2 - 1

/-- Inverse normalization performed inside `grid_sample` with
`align_corners=True`: `(g + 1) / 2 * (n - 1)`. -/
def unnormCoord (n : ℕ) (g : ℚ) : ℚ := (g + 1) / 2 * ((n : ℚ) - 1)

/-- The grid of `volume_grid(baseshape, transform, normalize=...)`: transformed
voxel coordinates, normalized to `[-1, 1]` and with the coordinate order
reversed (`flip(-1)`) as torch's sampler expects. -/
def volumeGrid (shape : IVec3) (M : AffMat) (norm : ℕ × ℕ × ℕ) :
    List (List (List Vec3)) :=
  (List.range shape.x.toNat).map (fun i =>
    (List.range shape.y.toNat).map (fun j =>
      (List.range shape.z.toNat).map (fun k =>
        let p := M.apply ⟨(i : ℚ), (j : ℚ), (k : ℚ)⟩
        (⟨normCoord norm.2.2 p.z, normCoord norm.2.1 p.y, normCoord norm.1 p.x⟩ : Vec3))))

/-- Reflection of a continuous coordinate about the borders `0` and `n - 1`
(align-corners reflection padding). -/
def reflectCoord (n : ℕ) (x : ℚ) : ℚ :=
  if n ≤ 1 then 0
  else
    let span := 2 * ((n : ℚ) - 1)
    let r := x - span * ⌊x / span⌋
    if r ≤ (n : ℚ) - 1 then r else span - r

/-- Clamp a continuous coordinate into `[0, n - 1]`. -/
def clipCoord (n : ℕ) (x : ℚ) : ℚ := min (max x 0) ((n : ℚ) - 1)

/-- Padding-mode adjustment applied to a source coordinate before sampling. -/
def adjustCoord (pm : PaddingMode) (n : ℕ) (x : ℚ) : ℚ :=
  match pm with
  | .zeros => x
  | .border => clipCoord n x
  | .reflection => clipCoord n (reflectCoord n x)

/-- Value of one channel at integer coordinates, `0` outside the grid. -/
def at3 (ch : T3) (i j k : ℤ) : ℚ :=
  if i < 0 ∨ j < 0 ∨ k < 0 then 0
  else ((ch.getD i.toNat []).getD j.toNat []).getD k.toNat 0

/-- Trilinear interpolation of one channel at a continuous source position. -/
def sampleLinear (ch : T3) (x y z : ℚ) : ℚ :=
  let x0 := ⌊x⌋
  let y0 := ⌊y⌋
  let z0 := ⌊z⌋
  let wx := x - (x0 : ℚ)
  let wy := y - (y0 : ℚ)
  let wz := z - (z0 : ℚ)
  (1 - wx) * ((1 - wy) * ((1 - wz) * at3 ch x0 y0 z0 + wz * at3 ch x0 y0 (z0 + 1))
              + wy * ((1 - wz) * at3 ch x0 (y0 + 1) z0 + wz * at3 ch x0 (y0 + 1) (z0 + 1)))
  + wx * ((1 - wy) * ((1 - wz) * at3 ch (x0 + 1) y0 z0 + wz * at3 ch (x0 + 1) y0 (z0 + 1))
          + wy * ((1 - wz) * at3 ch (x0 + 1) (y0 + 1) z0
                  + wz * at3 ch (x0 + 1) (y0 + 1) (z0 + 1)))

/-- Nearest-neighbour sampling (`nearbyint`, i.e. round half to even). -/
def sampleNearest (ch : T3) (dims : ℕ × ℕ × ℕ) (x y z : ℚ) : ℚ :=
  let i := rround x
  let j := rround y
  let k := rround z
  if 0 ≤ i ∧ i < (dims.1 : ℤ) ∧ 0 ≤ j ∧ j < (dims.2.1 : ℤ) ∧
     0 ≤ k ∧ k < (dims.2.2 : ℤ) then at3 ch i j k else 0

/-- The `torch.nn.functional.grid_sample` call with `align_corners=True`:
the normalized grid is un-normalized per axis (in the flipped order), the
padding policy adjusts the source coordinate, and the value is interpolated. -/
def gridSample (t : T4) (grid : List (List (List Vec3))) (mode : IMode)
    (pm : PaddingMode) : T4 :=
  let dims := tdims t
  t.map (fun ch =>
    grid.map (fun plane =>
      plane.map (fun row =>
        row.map (fun g =>
          let x := adjustCoord pm dims.1 (unnormCoord dims.1 g.z)
          let y := adjustCoord pm dims.2.1 (unnormCoord dims.2.1 g.y)
          let z := adjustCoord pm dims.2.2 (unnormCoord dims.2.2 g.x)
          match mode with
          | .linear => sampleLinear ch x y z
          | .nearest => sampleNearest ch dims x y z))))

/-! ### Statistics: quantile -/

/-- Insertion of one element into a sorted list. -/
def insOrd (a : ℚ) : List ℚ → List ℚ
  | [] => [a]
  | b :: l => if a ≤ b then a :: b :: l else b :: insOrd a l

/-- Insertion sort (a convenient executable stand-in for the multiset
selection performed by `topk`). -/
def insSort : List ℚ → List ℚ
  | [] => []
  | a :: l => insOrd a (insSort l)

/-- Global minimum `tensor.min()` of a (nonempty) tensor. -/
def tmin (t : T4) : ℚ := (tflat t).foldl min ((tflat t).headD 0)

/-- Global maximum `tensor.max()` of a (nonempty) tensor. -/
def tmax (t : T4) : ℚ := (tflat t).foldl max ((tflat t).headD 0)

/-- The `quantile` method: domain check, exact min/max at the endpoints, and a
`topk`-based order statistic in between (the min of the `k` largest values is
the `(n-k)`-th entry of the ascending sort, the max of the `k` smallest the
`(k-1)`-th).  Reductions over an empty tensor raise, as in torch. -/
def Volume.quantile (V : Volume) (q : ℚ) : Except VErr ℚ :=
  if q < 0 ∨ 1 < q then .error .domain
  else
    let flat := tflat V.tensor
    if flat = [] then .error .runtime
    else if q = 0 then .ok (tmin V.tensor)
    else if q = 1 then .ok (tmax V.tensor)
    else
      let n := flat.length
      let sorted := insSort flat
      if 1/2 < q then
        let k := (⌊(n : ℚ) * (1 - q)⌋).toNat + 1
        .ok (sorted.getD (n - k) 0)
      else
        let k := (⌊(n : ℚ) * q⌋).toNat + 1
        .ok (sorted.getD (k - 1) 0)

/-! ### Bounds and centroids -/

def t3zip (f : ℚ → ℚ → ℚ) (a b : T3) : T3 :=
  List.zipWith (fun p q => List.zipWith (fun r s => List.zipWith f r s) p q) a b

/-- Channel-axis sum `tensor.sum(0)`. -/
def sumChannels (t : T4) : T3 :=
  match t with
  | [] => []
  | v :: rest => rest.foldl (t3zip (· + ·)) v

/-- Indices of nonzero voxels of a 3D tensor, in row-major order
(`tensor.nonzero()`). -/
def nonzeroIdx3 (t : T3) : List IVec3 :=
  (t.enum.flatMap (fun vi =>
    (vi.2.enum.flatMap (fun pj =>
      (pj.2.enum.filter (fun rk => rk.2 ≠ 0)).map (fun rk =>
        (⟨(vi.1 : ℤ), (pj.1 : ℤ), (rk.1 : ℤ)⟩ : IVec3))))))

/-- Modelled from the spec: `vx.mesh.construct_box_mesh(min, max)` — the
axis-aligned box mesh with the eight corner vertices. -/
def constructBoxMesh (a b : Vec3) : List Vec3 :=
  [⟨a.x, a.y, a.z⟩, ⟨a.x, a.y, b.z⟩, ⟨a.x, b.y, a.z⟩, ⟨a.x, b.y, b.z⟩,
   ⟨b.x, a.y, a.z⟩, ⟨b.x, a.y, b.z⟩, ⟨b.x, b.y, a.z⟩, ⟨b.x, b.y, b.z⟩]

/-- Corner-point computation of the `bounds` method: extent of the grid, or of
the nonzero mask.  For a multi-channel volume the nonzero branch `view`s a 4D
tensor into the 3D baseshape, which torch rejects whenever the volume has
data. -/
def boundsCorners (V : Volume) (nonzero : Bool) : Except VErr (Vec3 × Vec3) :=
  if nonzero then
      if 1 < V.num_channels ∧ numel V.tensor ≠ tW V.tensor * tH V.tensor * tD V.tensor
      then .error .runtime
      else
        let t3 := if 1 < V.num_channels then [] else sumChannels V.tensor
        let nz := nonzeroIdx3 t3
        match nz with
        | [] => .error .emptyNonzero
        | c :: rest =>
            let mn := rest.foldl (fun (m : IVec3) p => ⟨min m.x p.x, min m.y p.y, min m.z p.z⟩) c
            let mx := rest.foldl (fun (m : IVec3) p => ⟨max m.x p.x, max m.y p.y, max m.z p.z⟩) c
            .ok (mn.toVec, mx.toVec)
    else
      .ok (Vec3.zero, ⟨(tW V.tensor : ℚ) - 1, (tH V.tensor : ℚ) - 1, (tD V.tensor : ℚ) - 1⟩)

/-- The `bounds` method: corner points, margin adjustment (the source
subtracts the margin-over-spacing offset from the min corner and then
immediately adds it back, lines 651-653), and the world-space box mesh. -/
def Volume.bounds (V : Volume) (nonzero : Bool) (margin : Option Vec3) :
    Except VErr (List Vec3) :=
  match boundsCorners V nonzero with
  | .error e => .error e
  | .ok (mn, mx) =>
      let mn' := match margin with
        | none => mn
        | some m => (mn.sub (m.div V.geometry.spacing)).add (m.div V.geometry.spacing)
      .ok ((constructBoxMesh mn' mx).map V.geometry.mat.apply)

/-- Coordinate space selector. -/
inductive Space where
  | voxel
  | world
  deriving DecidableEq

def meanL (l : List ℚ) : ℚ := l.sum / (l.length : ℚ)

/-- The helper `coord(a) = (a * arange(n)).sum(-1) / (a.sum(-1) + 1e-6)` of
`centroids`, on one 1D profile. -/
def coordC (a : List ℚ) : ℚ :=
  ((a.enum.map (fun p => p.2 * (p.1 : ℚ))).sum) / (a.sum + 1 / 1000000)

/-- Mean over the first axis of a 2D tensor (torch `mean(-2)`). -/
def colMeans (m : T2) : T1 :=
  (List.range (m.headD []).length).map (fun j => meanL (m.map (fun r => r.getD j 0)))

/-- The `centroids` method: per-channel centers of mass of the non-negative
part.  The world-space branch dereferences `self.matrix`, an attribute the
`Volume` class does not define, so it raises an `AttributeError` after the
voxel computation. -/
def Volume.centroids (V : Volume) (space : Space) : Except VErr (List Vec3) :=
  let cl := tmap (fun q => max q 0) V.tensor
  let pts := cl.map (fun v =>
    let zm := v.map (fun p => p.map meanL)
    let x := coordC (zm.map meanL)
    let y := coordC (colMeans zm)
    let z := coordC (colMeans (v.map colMeans))
    (⟨x, y, z⟩ : Vec3))
  match space with
  | .voxel => .ok pts
  | .world => .error .attribute

/-! ### Crop -/

/-- Cropping argument: a (possibly partial) slicing tuple or a bounding mesh. -/
inductive CropArg where
  | slices (items : List SliceItem)
  | mesh (vertices : List Vec3)

/-- The `crop` method.  A mesh is inverse-transformed to voxel space and
reduced to clamped integer corner coordinates; a slicing tuple is expanded to
rank 4 and must not collapse a spatial axis.  The geometry is shifted by the
min corner (and scaled by any stride) and re-anchored to the cropped shape. -/
def Volume.crop (V : Volume) (cropping : CropArg) (margin : Option Vec3) :
    Except VErr Volume :=
  let marginVox : Option IVec3 := margin.map (fun m =>
    ⟨rround (m.x / V.geometry.spacing.x),
     rround (m.y / V.geometry.spacing.y),
     rround (m.z / V.geometry.spacing.z)⟩)
  let base := tbase V.tensor
  let parts : Except VErr (List SliceItem × IVec3 × Option IVec3) :=
    match cropping with
    | .mesh vs =>
        match V.geometry.mat.inv with
        | none => .error .singular
        | some w2v =>
            match vs.map w2v.apply with
            | [] => .error .runtime
            | p :: ps =>
                let mnq := ps.foldl
                  (fun (m : Vec3) r => ⟨min m.x r.x, min m.y r.y, min m.z r.z⟩) p
                let mxq := ps.foldl
                  (fun (m : Vec3) r => ⟨max m.x r.x, max m.y r.y, max m.z r.z⟩) p
                let minc0 : IVec3 := ⟨⌈mnq.x⌉, ⌈mnq.y⌉, ⌈mnq.z⌉⟩
                let maxc0 : IVec3 := ⟨⌊mxq.x⌋, ⌊mxq.y⌋, ⌊mxq.z⌋⟩
                let minc1 := match marginVox with
                  | none => minc0
                  | some m => minc0.sub m
                let maxc1 := match marginVox with
                  | none => maxc0
                  | some m => maxc0.add m
                let minc : IVec3 := ⟨max minc1.x 0, max minc1.y 0, max minc1.z 0⟩
                let maxc : IVec3 :=
                  ⟨min maxc1.x base.x, min maxc1.y base.y, min maxc1.z base.z⟩
                .ok (SliceItem.all :: coordinatesToSlicing minc maxc none, minc, none)
    | .slices items =>
        match expandSlicing items 4 with
        | .error e => .error e
        | .ok expanded =>
            if (expanded.drop 1).any SliceItem.isIdx then .error .invalidCrop
            else
              match slicingToCoordinates (items.drop 1) (tdims V.tensor) with
              | .error e => .error e
              | .ok (minc0, maxc0, stride) =>
                  match marginVox with
                  | none => .ok (expanded, minc0, stride)
                  | some m =>
                      let minc : IVec3 :=
                        ⟨max (minc0.x - m.x) 0, max (minc0.y - m.y) 0,
                         max (minc0.z - m.z) 0⟩
                      let maxc : IVec3 :=
                        ⟨min (maxc0.x + m.x) base.x, min (maxc0.y + m.y) base.y,
                         min (maxc0.z + m.z) base.z⟩
                      .ok (expanded.headD SliceItem.all ::
                             coordinatesToSlicing minc maxc stride, minc, stride)
  match parts with
  | .error e => .error e
  | .ok (slicing, minc, stride) =>
      let g0 := if minc = (⟨0, 0, 0⟩ : IVec3) then V.geometry
                else V.geometry.shiftVoxel minc.toVec
      let g1 := match stride with
        | none => g0
        | some s => g0.scaleVoxel s.toVec
      match applySlicing V.tensor slicing with
      | .error e => .error e
      | .ok ct => mkVolume ct ⟨tbase ct, g1.mat⟩

/-! ### Fast-path resampling (crop + pad on an integer voxel shift) -/

/-- Map the public padding vocabulary into `F.pad`'s
(`zeros` to `constant`, `reflection` to `reflect`, `border` to `replicate`). -/
def toPadMode : PaddingMode → PadMode
  | .zeros => .constant
  | .reflection => .reflect
  | .border => .replicate

/-- The integer-shift fast path of `resample_like` (source lines 815-836):
crop by the clamped lower/upper corners, then pad the opposite sides.
Reflection padding wider than the cropped extent is rejected by torch. -/
def fastShift (t : T4) (tgtShape : IVec3) (lower : IVec3) (pm : PaddingMode) :
    Except VErr T4 :=
  let n := tbase t
  let upper := lower.add (tgtShape.sub n)
  let minc : IVec3 := ⟨max lower.x 0, max lower.y 0, max lower.z 0⟩
  let maxc : IVec3 :=
    ⟨min upper.x 0 + n.x, min upper.y 0 + n.y, min upper.z 0 + n.z⟩
  let sW := resolveIdx (tW t) minc.x
  let eW := resolveIdx (tW t) maxc.x
  let sH := resolveIdx (tH t) minc.y
  let eH := resolveIdx (tH t) maxc.y
  let sD := resolveIdx (tD t) minc.z
  let eD := resolveIdx (tD t) maxc.z
  let cropped := t.map (fun v =>
    (cropList sW (eW - sW) v).map (fun p =>
      (cropList sH (eH - sH) p).map (fun r => cropList sD (eD - sD) r)))
  let aW := (-lower.x).toNat
  let aH := (-lower.y).toNat
  let aD := (-lower.z).toNat
  let bW := upper.x.toNat
  let bH := upper.y.toNat
  let bD := upper.z.toNat
  if aW = 0 ∧ aH = 0 ∧ aD = 0 ∧ bW = 0 ∧ bH = 0 ∧ bD = 0 then .ok cropped
  else
    let mode := toPadMode pm
    if mode = PadMode.reflect ∧
       (tW cropped ≤ max aW bW ∨ tH cropped ≤ max aH bH ∨ tD cropped ≤ max aD bD)
    then .error .badPad
    else .ok (pad4 cropped mode (eH - sH) (eD - sD) aW bW aH bH aD bD)

/-! ### Resampling -/

/-- The grid-interpolation fallback of `resample_like` (source lines 838-855):
compose the inverse source geometry with the target, build the normalized
grid over the target shape, and `grid_sample`. -/
def interpPath (V : Volume) (target : Geom) (mode : IMode) (pm : PaddingMode) :
    Except VErr Volume :=
  match V.geometry.mat.inv with
  | none => .error .singular
  | some gi =>
      let tr := gi.comp target.mat
      let grid := volumeGrid target.baseshape tr (tdims V.tensor)
      mkVolume (gridSample V.tensor grid mode pm) target

/-- The `resample_like` method: identity check, integer-voxel-shift fast path,
then grid interpolation. -/
def Volume.resample_like (V : Volume) (target : Geom) (mode : IMode)
    (pm : PaddingMode) : Except VErr Volume :=
  if mclose V.geometry.mat.A target.mat.A then
    if target.baseshape = tbase V.tensor ∧ vclose V.geometry.mat.t target.mat.t then
      mkVolume V.tensor target
    else
      match V.geometry.mat.inv with
      | none => .error .singular
      | some gi =>
          let delta := (gi.comp target.mat).apply Vec3.zero
          let dr := vround delta
          if vclose delta dr.toVec then
            match fastShift V.tensor target.baseshape dr pm with
            | .error e => .error e
            | .ok rt => mkVolume rt target
          else interpPath V target mode pm
  else interpPath V target mode pm

/-- The `resample` method: derive the ceil-rounded shape for a target spacing,
re-center, scale, and delegate to `resample_like`. -/
def Volume.resample (V : Volume) (spacing : Vec3) (mode : IMode)
    (pm : PaddingMode) : Except VErr Volume :=
  let cur : Vec3 := ⟨(tW V.tensor : ℚ), (tH V.tensor : ℚ), (tD V.tensor : ℚ)⟩
  let sp := V.geometry.spacing
  let news : IVec3 :=
    ⟨⌈sp.x * cur.x / spacing.x⌉, ⌈sp.y * cur.y / spacing.y⌉, ⌈sp.z * cur.z / spacing.z⌉⟩
  let scale := spacing.div sp
  let shift : Vec3 :=
    ⟨1/2 * scale.x * (1 - (news.x : ℚ) / cur.x),
     1/2 * scale.y * (1 - (news.y : ℚ) / cur.y),
     1/2 * scale.z * (1 - (news.z : ℚ) / cur.z)⟩
  let target : Geom := ⟨news, ((V.geometry.shiftVoxel shift).scaleVoxel scale).mat⟩
  V.resample_like target mode pm

/-- The `reshape` method: center the target shape over the current one with a
floor-divided shift and resample with `nearest`. -/
def Volume.reshape (V : Volume) (shape : IVec3) : Except VErr Volume :=
  let cur := tbase V.tensor
  let sh : IVec3 := ⟨(cur.x - shape.x) / 2, (cur.y - shape.y) / 2, (cur.z - shape.z) / 2⟩
  let target : Geom := ⟨shape, (V.geometry.shiftVoxel sh.toVec).mat⟩
  V.resample_like target .nearest .zeros

/-- The `pad` method: world delta to rounded voxel delta, grown shape,
re-centered geometry, `nearest` resampling. -/
def Volume.pad (V : Volume) (delta : Vec3) : Except VErr Volume :=
  let cur := tbase V.tensor
  let r := vround (delta.div V.geometry.spacing)
  let news := cur.add r
  let sh : IVec3 := ⟨(cur.x - news.x) / 2, (cur.y - news.y) / 2, (cur.z - news.z) / 2⟩
  let target : Geom := ⟨news, (V.geometry.shiftVoxel sh.toVec).mat⟩
  V.resample_like target .nearest .zeros

/-- The `transform` method.  A bare affine matrix is interpreted as a
world-space transform with source and target equal to the volume itself
(modelled from the spec's `AffineVolumeTransform` contract: the voxel-space
version of a world transform `M` relative to geometry `G` is `G⁻¹ M G`, and
`convert(space='world')` of its inverse is `M⁻¹`). -/
def Volume.transform (V : Volume) (M : AffMat) (resample negate : Bool)
    (mode : IMode) : Except VErr Volume :=
  if resample = false then
    if negate then .error .precondition
    else mkVolume V.tensor ⟨V.geometry.baseshape, M.comp V.geometry.mat⟩
  else
    match V.geometry.mat.inv with
    | none => .error .singular
    | some gi =>
        match M.inv with
        | none => .error .singular
        | some Mi =>
            let inverted := (gi.comp Mi).comp V.geometry.mat
            let grid := volumeGrid V.geometry.baseshape inverted (tdims V.tensor)
            let interp := gridSample V.tensor grid mode .zeros
            let tgtG : Geom :=
              if negate then ⟨V.geometry.baseshape, Mi.comp V.geometry.mat⟩
              else V.geometry
            mkVolume interp tgtG

/-! ### Elementwise operators and like-constructors -/

/-- Scalar elementwise addition (`__add__` with a scalar operand): a new
volume over the same geometry. -/
def Volume.addScalar (V : Volume) (q : ℚ) : Except VErr Volume :=
  mkVolume (tmap (· + q) V.tensor) V.geometry

/-- Volume elementwise addition (`__add__` with a volume operand) at equal
shapes (the spec requires operand shape compatibility). -/
def Volume.addVolume (V U : Volume) : Except VErr Volume :=
  if V.tensor.length = U.tensor.length ∧ tdims V.tensor = tdims U.tensor then
    mkVolume (tzip (· + ·) V.tensor U.tensor) V.geometry
  else .error .shape

/-- The `zeros_like` constructor: zeros of the same baseshape (and optionally
a new channel count), sharing the geometry. -/
def Volume.zeros_like (V : Volume) (channels : Option ℕ) : Except VErr Volume :=
  let c := channels.getD V.tensor.length
  mkVolume (tzeros c (tW V.tensor) (tH V.tensor) (tD V.tensor)) V.geometry

/-! ### Basic lemmas -/

theorem qclose_refl (a : ℚ) : qclose a a := by
  unfold qclose tol; constructor <;> norm_num

theorem mclose_refl (A : Mat3) : mclose A A := by
  unfold mclose
  refine ⟨?_, ?_, ?_, ?_, ?_, ?_, ?_, ?_, ?_⟩ <;> exact qclose_refl _

theorem vclose_refl (u : Vec3) : vclose u u :=
  ⟨qclose_refl _, qclose_refl _, qclose_refl _⟩

/-- Successful construction yields the geometry invariant. -/
theorem mkVolume_ok_wfGeo (t : T4) (g : Geom) (V : Volume)
    (h : mkVolume t g = .ok V) : V.wfGeo := by
  unfold mkVolume at h
  split at h
  · cases h
    assumption
  · cases h

/-- The interpolation fallback preserves the geometry invariant. -/
theorem interpPath_ok_wfGeo (V : Volume) (T : Geom) (mo : IMode) (pm : PaddingMode)
    (W : Volume) (h : interpPath V T mo pm = .ok W) : W.wfGeo := by
  unfold interpPath at h
  split at h
  · cases h
  · exact mkVolume_ok_wfGeo _ _ _ h

/-- `resample_like` preserves the geometry invariant. -/
theorem resample_like_ok_wfGeo (V : Volume) (T : Geom) (mo : IMode)
    (pm : PaddingMode) (W : Volume) (h : V.resample_like T mo pm = .ok W) :
    W.wfGeo := by
  unfold Volume.resample_like at h
  split at h
  · split at h
    · exact mkVolume_ok_wfGeo _ _ _ h
    · split at h
      · cases h
      · dsimp only at h
        split at h
        · split at h
          · cases h
          · exact mkVolume_ok_wfGeo _ _ _ h
        · exact interpPath_ok_wfGeo _ _ _ _ _ h
  · exact interpPath_ok_wfGeo _ _ _ _ _ h

/-- `crop` preserves the geometry invariant. -/
theorem crop_ok_wfGeo (V : Volume) (c : CropArg) (m : Option Vec3) (W : Volume)
    (h : V.crop c m = .ok W) : W.wfGeo := by
  unfold Volume.crop at h
  dsimp only at h
  split at h
  · cases h
  · split at h
    · cases h
    · exact mkVolume_ok_wfGeo _ _ _ h

/-- `transform` preserves the geometry invariant. -/
theorem transform_ok_wfGeo (V : Volume) (M : AffMat) (r n : Bool) (mo : IMode)
    (W : Volume) (h : V.transform M r n mo = .ok W) : W.wfGeo := by
  unfold Volume.transform at h
  split at h
  · split at h
    · cases h
    · exact mkVolume_ok_wfGeo _ _ _ h
  · split at h
    · cases h
    · split at h
      · cases h
      · exact mkVolume_ok_wfGeo _ _ _ h

/-! ### Claim C5 -/

/-- Claim C5: every Volume satisfies the invariant that its geometry's
anchored baseshape equals the spatial shape of its data tensor
(`tensor.shape[1:]`); the invariant is established at construction
(constructing or assigning a mismatched geometry fails) and preserved by every
public operation that produces a new Volume (crop, resample, resample_like,
reshape, pad, transform, elementwise operators, like-constructors). -/
theorem C5_geometry_invariant :
    (∀ (t : T4) (g : Geom) (V : Volume), mkVolume t g = .ok V → V.wfGeo) ∧
    (∀ (t : T4) (g : Geom), g.baseshape ≠ tbase t → mkVolume t g = .error .shape) ∧
    (∀ (V : Volume) (g : Geom) (W : Volume), setGeometry V g = .ok W → W.wfGeo) ∧
    (∀ (V : Volume) (c : CropArg) (m : Option Vec3) (W : Volume),
       V.crop c m = .ok W → W.wfGeo) ∧
    (∀ (V : Volume) (T : Geom) (mo : IMode) (pm : PaddingMode) (W : Volume),
       V.resample_like T mo pm = .ok W → W.wfGeo) ∧
    (∀ (V : Volume) (s : Vec3) (mo : IMode) (pm : PaddingMode) (W : Volume),
       V.resample s mo pm = .ok W → W.wfGeo) ∧
    (∀ (V : Volume) (s : IVec3) (W : Volume), V.reshape s = .ok W → W.wfGeo) ∧
    (∀ (V : Volume) (d : Vec3) (W : Volume), V.pad d = .ok W → W.wfGeo) ∧
    (∀ (V : Volume) (M : AffMat) (r n : Bool) (mo : IMode) (W : Volume),
       V.transform M r n mo = .ok W → W.wfGeo) ∧
    (∀ (V : Volume) (q : ℚ) (W : Volume), V.addScalar q = .ok W → W.wfGeo) ∧
    (∀ (V U W : Volume), V.addVolume U = .ok W → W.wfGeo) ∧
    (∀ (V : Volume) (c : Option ℕ) (W : Volume), V.zeros_like c = .ok W → W.wfGeo) := by
  refine ⟨mkVolume_ok_wfGeo, ?_, ?_, crop_ok_wfGeo, resample_like_ok_wfGeo,
    ?_, ?_, ?_, transform_ok_wfGeo, ?_, ?_, ?_⟩
  · intro t g hne
    unfold mkVolume
    exact if_neg hne
  · intro V g W h
    exact mkVolume_ok_wfGeo _ _ _ h
  · intro V s mo pm W h
    exact resample_like_ok_wfGeo _ _ _ _ _ h
  · intro V s W h
    exact resample_like_ok_wfGeo _ _ _ _ _ h
  · intro V d W h
    exact resample_like_ok_wfGeo _ _ _ _ _ h
  · intro V q W h
    exact mkVolume_ok_wfGeo _ _ _ h
  · intro V U W h
    unfold Volume.addVolume at h
    split at h
    · exact mkVolume_ok_wfGeo _ _ _ h
    · cases h
  · intro V c W h
    exact mkVolume_ok_wfGeo _ _ _ h

/-! ### Claim C3 -/

/-- Claim C3: if the rotation/scale part of the source geometry matches the
target's within absolute tolerance 1e-4, the target baseshape equals the
volume baseshape, and the translation columns match within 1e-4, then
`resample_like` is a no-op: it returns a new Volume holding the source data
unchanged, paired with the target geometry. -/
theorem C3_identity_noop (V : Volume) (T : Geom) (mo : IMode) (pm : PaddingMode)
    (hA : mclose V.geometry.mat.A T.mat.A)
    (hb : T.baseshape = tbase V.tensor)
    (ht : vclose V.geometry.mat.t T.mat.t) :
    V.resample_like T mo pm = .ok ⟨V.tensor, T⟩ := by
  unfold Volume.resample_like
  rw [if_pos hA, if_pos ⟨hb, ht⟩]
  unfold mkVolume
  rw [if_pos hb]

/-- Witness for C3 at a concrete volume and target geometry whose translation
differs by 1/20000 < 1e-4. -/
theorem C3_witness :
    Volume.resample_like
      ⟨[[[[2, 5]]]], ⟨⟨1, 1, 2⟩, ⟨Mat3.id, Vec3.zero⟩⟩⟩
      ⟨⟨1, 1, 2⟩, ⟨Mat3.id, ⟨1/20000, 0, 0⟩⟩⟩ .linear .zeros
      = .ok ⟨[[[[2, 5]]]], ⟨⟨1, 1, 2⟩, ⟨Mat3.id, ⟨1/20000, 0, 0⟩⟩⟩⟩ :=
  C3_identity_noop _ _ _ _
    (mclose_refl _)
    rfl
    (by unfold vclose qclose tol; norm_num [Vec3.zero])

/-! ### Claim C4 -/

/-- Claim C4: `transform(M, resample=False)` leaves the data tensor unchanged
and only composes the world-space transform onto the geometry
(`new_geometry = M ∘ geometry`); nothing else about the volume changes. -/
theorem C4_transform_geometry_only (V : Volume) (M : AffMat) (mo : IMode)
    (hw : V.wfGeo) :
    V.transform M false false mo
      = .ok ⟨V.tensor, ⟨V.geometry.baseshape, M.comp V.geometry.mat⟩⟩ := by
  unfold Volume.transform mkVolume
  simp only [if_pos rfl, Bool.false_eq_true, if_false, if_true]
  exact if_pos hw

/-- Witness for C4 at a concrete volume and a concrete world transform. -/
theorem C4_witness :
    Volume.transform
      ⟨[[[[7]]]], ⟨⟨1, 1, 1⟩, ⟨Mat3.id, Vec3.zero⟩⟩⟩
      ⟨Mat3.id, ⟨4, 5, 6⟩⟩ false false .linear
      = .ok ⟨[[[[7]]]],
             ⟨⟨1, 1, 1⟩, AffMat.comp ⟨Mat3.id, ⟨4, 5, 6⟩⟩ ⟨Mat3.id, Vec3.zero⟩⟩⟩ :=
  C4_transform_geometry_only _ _ _ rfl

/-- Witness fixture check for C5: the invariant holds for a concretely
constructed volume, via the construction clause of the claim theorem. -/
theorem C5_witness :
    (⟨[[[[ (1 : ℚ) ]]]], ⟨⟨1, 1, 1⟩, ⟨Mat3.id, Vec3.zero⟩⟩⟩ : Volume).wfGeo :=
  C5_geometry_invariant.1 [[[[ (1 : ℚ) ]]]] ⟨⟨1, 1, 1⟩, ⟨Mat3.id, Vec3.zero⟩⟩ _ rfl

/-! ### Claim C7 -/

/-- Claim C7: `quantile(0)` returns exactly the data minimum and `quantile(1)`
exactly the data maximum, and `quantile(q)` fails with a domain error for
`q` outside `[0, 1]`. -/
theorem C7_quantile_boundary :
    (∀ V : Volume, tflat V.tensor ≠ [] →
       V.quantile 0 = .ok (tmin V.tensor) ∧ V.quantile 1 = .ok (tmax V.tensor)) ∧
    (∀ (V : Volume) (q : ℚ), q < 0 ∨ 1 < q → V.quantile q = .error .domain) := by
  constructor
  · intro V hne
    constructor
    · unfold Volume.quantile
      rw [if_neg (by norm_num)]
      dsimp only
      rw [if_neg hne, if_pos rfl]
    · unfold Volume.quantile
      rw [if_neg (by norm_num)]
      dsimp only
      rw [if_neg hne, if_neg (by norm_num), if_pos rfl]
  · intro V q hq
    unfold Volume.quantile
    rw [if_pos hq]

/-- Witness for C7: both boundary quantiles and an out-of-range failure at a
concrete two-voxel volume. -/
theorem C7_witness :
    Volume.quantile ⟨[[[[3, 1]]]], ⟨⟨1, 1, 2⟩, ⟨Mat3.id, Vec3.zero⟩⟩⟩ 0
      = .ok (tmin [[[[3, 1]]]]) ∧
    Volume.quantile ⟨[[[[3, 1]]]], ⟨⟨1, 1, 2⟩, ⟨Mat3.id, Vec3.zero⟩⟩⟩ 1
      = .ok (tmax [[[[3, 1]]]]) ∧
    Volume.quantile ⟨[[[[3, 1]]]], ⟨⟨1, 1, 2⟩, ⟨Mat3.id, Vec3.zero⟩⟩⟩ 2
      = .error .domain :=
  ⟨(C7_quantile_boundary.1 _ (by simp [tflat])).1,
   (C7_quantile_boundary.1 _ (by simp [tflat])).2,
   C7_quantile_boundary.2 _ 2 (by norm_num)⟩

/-! ### Claim C9 -/

theorem vec3_sub_add_cancel (a b : Vec3) : (a.sub b).add b = a := by
  unfold Vec3.sub Vec3.add
  cases a
  simp

/-- Claim C9: the `margin` argument of `bounds` has no effect — the
margin-over-spacing offset is subtracted from and immediately added back to
the minimum corner, and the maximum corner is never adjusted, so the returned
mesh is exactly the one computed without a margin (exact arithmetic). -/
theorem C9_bounds_margin_noop (V : Volume) (nz : Bool) (m : Vec3) :
    V.bounds nz (some m) = V.bounds nz none := by
  unfold Volume.bounds
  cases h : boundsCorners V nz with
  | error e => rfl
  | ok p =>
      cases p with
      | mk mn mx => simp [vec3_sub_add_cancel]

/-! ### Claim C10 -/

/-- Claim C10: `centroids(space='world')` always fails (the world branch reads
a `matrix` attribute that `Volume` does not define), while
`centroids(space='voxel')` always succeeds with one 3D coordinate per
channel. -/
theorem C10_centroids_world_fails (V : Volume) :
    V.centroids .world = .error .attribute ∧
    ∃ l, V.centroids .voxel = .ok l ∧ l.length = V.num_channels := by
  constructor
  · rfl
  · refine ⟨_, rfl, ?_⟩
    simp [Volume.centroids, Volume.num_channels, tmap]

/-! ### Claim C6 -/

/-- Claim C6: if the expanded slicing tuple would collapse a spatial axis to a
scalar index, `crop` fails with the invalid-crop error and no cropped volume
is produced. -/
theorem C6_crop_spatial_index_fails (V : Volume) (items : List SliceItem)
    (m : Option Vec3) (l : List SliceItem)
    (hexp : expandSlicing items 4 = .ok l)
    (hidx : (l.drop 1).any SliceItem.isIdx) :
    V.crop (.slices items) m = .error .invalidCrop := by
  unfold Volume.crop
  dsimp only
  rw [hexp]
  dsimp only
  rw [if_pos hidx]

/-- Witness for C6: a concrete slicing tuple with a scalar index in the first
spatial position. -/
theorem C6_witness :
    Volume.crop ⟨[[[[5]]]], ⟨⟨1, 1, 1⟩, ⟨Mat3.id, Vec3.zero⟩⟩⟩
      (.slices [SliceItem.all, .idx 0]) none = .error .invalidCrop :=
  C6_crop_spatial_index_fails _ _ _ _ rfl rfl

/-! ### Shared evaluation lemmas for the fast path -/

/-- When the linear parts are close, the identity check fails, and the voxel
delta rounds to integers within tolerance, `resample_like` reduces to the
crop/pad fast path. -/
theorem resample_like_fastpath (V : Volume) (T : Geom) (gi : AffMat) (mo : IMode)
    (pm : PaddingMode)
    (hA : mclose V.geometry.mat.A T.mat.A)
    (hnid : ¬(T.baseshape = tbase V.tensor ∧ vclose V.geometry.mat.t T.mat.t))
    (hinv : V.geometry.mat.inv = some gi)
    (hcl : vclose ((gi.comp T.mat).apply Vec3.zero)
             (vround ((gi.comp T.mat).apply Vec3.zero)).toVec) :
    V.resample_like T mo pm =
      match fastShift V.tensor T.baseshape
          (vround ((gi.comp T.mat).apply Vec3.zero)) pm with
      | .error e => .error e
      | .ok rt => mkVolume rt T := by
  unfold Volume.resample_like
  rw [if_pos hA, if_neg hnid, hinv]
  dsimp only
  rw [if_pos hcl]

/-- Inverse of the identity affine map. -/
theorem id_affine_inv : (⟨⟨1, 0, 0, 0, 1, 0, 0, 0, 1⟩, ⟨0, 0, 0⟩⟩ : AffMat).inv
    = some ⟨⟨1, 0, 0, 0, 1, 0, 0, 0, 1⟩, ⟨0, 0, 0⟩⟩ := by
  norm_num [AffMat.inv, Mat3.inv, Mat3.det, Mat3.adj, Mat3.smul, Mat3.mulVec, Vec3.neg]

/-! ### Claim C2 -/

/-- Claim C2 evaluation at the failing input: reshaping a `(4,1,1)` volume
with identity geometry down to `(3,1,1)` and back uses centering shifts
`(4-3)//2 = 0` and then `(3-4)//2 = -1` (python floor division), so the
round-trip geometry comes back translated by a full voxel `(-1,0,0)` — a full
world unit, far beyond the 1e-4 tolerance — contradicting the method's own
docstring ("performing a reverse reshape operation will always yeild the
original geometry"). -/
theorem C2_reshape_roundtrip_bug :
    (Volume.reshape ⟨[[[[1]], [[2]], [[3]], [[4]]]],
        ⟨⟨4, 1, 1⟩, ⟨⟨1, 0, 0, 0, 1, 0, 0, 0, 1⟩, ⟨0, 0, 0⟩⟩⟩⟩ ⟨3, 1, 1⟩).bind
      (fun U => U.reshape ⟨4, 1, 1⟩)
      = .ok ⟨[[[[0]], [[1]], [[2]], [[3]]]],
             ⟨⟨4, 1, 1⟩, ⟨⟨1, 0, 0, 0, 1, 0, 0, 0, 1⟩, ⟨-1, 0, 0⟩⟩⟩⟩ ∧
    ¬ vclose (⟨-1, 0, 0⟩ : Vec3) (⟨0, 0, 0⟩ : Vec3) := by
  have h1 : Volume.reshape ⟨[[[[1]], [[2]], [[3]], [[4]]]],
      ⟨⟨4, 1, 1⟩, ⟨⟨1, 0, 0, 0, 1, 0, 0, 0, 1⟩, ⟨0, 0, 0⟩⟩⟩⟩ ⟨3, 1, 1⟩
      = .ok ⟨[[[[1]], [[2]], [[3]]]],
             ⟨⟨3, 1, 1⟩, ⟨⟨1, 0, 0, 0, 1, 0, 0, 0, 1⟩, ⟨0, 0, 0⟩⟩⟩⟩ := by
    unfold Volume.reshape
    norm_num [tbase, tW, tH, tD, Geom.shiftVoxel, Mat3.mulVec, Vec3.add, IVec3.toVec]
    rw [resample_like_fastpath
      ⟨[[[[1]], [[2]], [[3]], [[4]]]],
        ⟨⟨4, 1, 1⟩, ⟨⟨1, 0, 0, 0, 1, 0, 0, 0, 1⟩, ⟨0, 0, 0⟩⟩⟩⟩
      ⟨⟨3, 1, 1⟩, ⟨⟨1, 0, 0, 0, 1, 0, 0, 0, 1⟩, ⟨0, 0, 0⟩⟩⟩
      ⟨⟨1, 0, 0, 0, 1, 0, 0, 0, 1⟩, ⟨0, 0, 0⟩⟩ .nearest .zeros (mclose_refl _)
      (fun h => absurd h.1 (by decide)) id_affine_inv
      (by norm_num [AffMat.comp, AffMat.apply, Mat3.mul, Mat3.mulVec, Vec3.add,
        Vec3.zero, vround, rround, IVec3.toVec, vclose, qclose, tol])]
    norm_num [vround, rround, AffMat.comp, AffMat.apply, Mat3.mul, Mat3.mulVec,
      Vec3.add, Vec3.zero]
    simp [fastShift, tbase, tW, tH, tD, resolveIdx, cropList, IVec3.add, IVec3.sub,
      Int.toNat_of_nonpos, mkVolume]
  have h2 : Volume.reshape ⟨[[[[1]], [[2]], [[3]]]],
      ⟨⟨3, 1, 1⟩, ⟨⟨1, 0, 0, 0, 1, 0, 0, 0, 1⟩, ⟨0, 0, 0⟩⟩⟩⟩ ⟨4, 1, 1⟩
      = .ok ⟨[[[[0]], [[1]], [[2]], [[3]]]],
             ⟨⟨4, 1, 1⟩, ⟨⟨1, 0, 0, 0, 1, 0, 0, 0, 1⟩, ⟨-1, 0, 0⟩⟩⟩⟩ := by
    unfold Volume.reshape
    norm_num [tbase, tW, tH, tD, Geom.shiftVoxel, Mat3.mulVec, Vec3.add, IVec3.toVec]
    rw [resample_like_fastpath
      ⟨[[[[1]], [[2]], [[3]]]],
        ⟨⟨3, 1, 1⟩, ⟨⟨1, 0, 0, 0, 1, 0, 0, 0, 1⟩, ⟨0, 0, 0⟩⟩⟩⟩
      ⟨⟨4, 1, 1⟩, ⟨⟨1, 0, 0, 0, 1, 0, 0, 0, 1⟩, ⟨-1, 0, 0⟩⟩⟩
      ⟨⟨1, 0, 0, 0, 1, 0, 0, 0, 1⟩, ⟨0, 0, 0⟩⟩ .nearest .zeros (mclose_refl _)
      (fun h => absurd h.1 (by decide)) id_affine_inv
      (by norm_num [AffMat.comp, AffMat.apply, Mat3.mul, Mat3.mulVec, Vec3.add,
        Vec3.zero, vround, rround, IVec3.toVec, vclose, qclose, tol])]
    norm_num [vround, rround, AffMat.comp, AffMat.apply, Mat3.mul, Mat3.mulVec,
      Vec3.add, Vec3.zero]
    simp [fastShift, tbase, tW, tH, tD, resolveIdx, cropList, IVec3.add, IVec3.sub,
      Int.toNat_of_nonpos, mkVolume, pad4, padAxis, padBefore, padAfter, toPadMode,
      List.replicate]
  refine ⟨?_, ?_⟩
  · rw [h1]
    show Except.bind _ _ = _
    rw [Except.bind]
    exact h2
  · unfold vclose qclose tol
    norm_num

/-! ### Rounding lemmas -/

/-- Half-even rounding is the identity on integers. -/
theorem rround_intCast (d : ℤ) : rround (d : ℚ) = d := by
  unfold rround
  rw [Int.floor_intCast]
  rw [if_pos]
  rw [sub_self]
  norm_num

/-- Half-even rounding is an odd function (`nearbyint(-x) = -nearbyint(x)`). -/
theorem rround_neg (q : ℚ) : rround (-q) = -rround q := by
  unfold rround
  dsimp only
  have hq : q - (⌊q⌋ : ℚ) = Int.fract q := rfl
  have hnq : -q - (⌊-q⌋ : ℚ) = Int.fract (-q) := rfl
  rcases eq_or_ne (Int.fract q) 0 with h0 | hne
  · have hq0 : (⌊q⌋ : ℚ) = q := by
      have := hq
      rw [h0] at this
      linarith
    have hq1 : ⌊-q⌋ = -⌊q⌋ := by
      rw [show -q = ((-⌊q⌋ : ℤ) : ℚ) by push_cast [hq0]; ring, Int.floor_intCast]
    rw [hq1, hq]
    rw [show -q - ((-⌊q⌋ : ℤ) : ℚ) = Int.fract q by push_cast [hq0]; rw [h0]; ring]
    rw [h0]
    rw [if_pos (by norm_num), if_pos (by norm_num)]
  · have hfr := Int.fract_neg hne
    have hmem := Int.fract_nonneg q
    have hlt := Int.fract_lt_one q
    have hfl : ⌊-q⌋ = -⌊q⌋ - 1 := by
      have h1 : (⌊-q⌋ : ℚ) = -q - Int.fract (-q) := by rw [← hnq]; ring
      have h2 : (⌊q⌋ : ℚ) = q - Int.fract q := by rw [← hq]; ring
      have h3 : (⌊-q⌋ : ℚ) = ((-⌊q⌋ - 1 : ℤ) : ℚ) := by
        rw [h1, hfr]
        push_cast [h2]
        ring
      exact_mod_cast h3
    rw [hq, hnq, hfr, hfl]
    rcases lt_trichotomy (Int.fract q) (1/2) with hlt2 | heq2 | hgt2
    · rw [if_neg (by linarith), if_pos (by linarith), if_pos hlt2]
      omega
    · rw [heq2]
      norm_num
      split <;> (split <;> omega)
    · rw [if_pos (by linarith), if_neg (by linarith), if_pos hgt2]
      omega

/-- Rounding a vector of integer casts recovers the vector. -/
theorem vround_toVec (d : IVec3) : vround d.toVec = d := by
  unfold vround IVec3.toVec
  simp [rround_intCast]

/-! ### Inverse lemmas -/

theorem mulVec_zero (A : Mat3) : A.mulVec ⟨0, 0, 0⟩ = ⟨0, 0, 0⟩ := by
  unfold Mat3.mulVec
  norm_num

/-- Explicit form of a successful affine inverse. -/
theorem affInv_of_det (M : AffMat) (hdet : M.A.det ≠ 0) :
    M.inv = some ⟨Mat3.smul (1 / M.A.det) M.A.adj,
      ((Mat3.smul (1 / M.A.det) M.A.adj).mulVec M.t).neg⟩ := by
  unfold AffMat.inv Mat3.inv
  rw [if_neg hdet]

/-- The voxel delta recovered by the integer-shift check: composing the
inverse geometry with a voxel-shifted copy of itself and transforming the
origin yields exactly the shift. -/
theorem shift_delta (M : AffMat) (gi : AffMat) (d : Vec3)
    (hdet : M.A.det ≠ 0) (hinv : M.inv = some gi) :
    (gi.comp ⟨M.A, (M.A.mulVec d).add M.t⟩).apply Vec3.zero = d := by
  rw [affInv_of_det M hdet] at hinv
  injection hinv with h
  subst h
  unfold AffMat.comp AffMat.apply Mat3.smul Mat3.adj Mat3.det Mat3.mulVec Vec3.add
    Vec3.neg Vec3.zero
  unfold Mat3.det at hdet
  cases d with
  | mk dx dy dz =>
      cases M with
      | mk A t =>
          cases A
          cases t
          simp only [Vec3.mk.injEq]
          refine ⟨?_, ?_, ?_⟩ <;> (field_simp; ring)

/-- The identity branch of `resample_like` (shared form). -/
theorem resample_like_identity (V : Volume) (T : Geom) (mo : IMode)
    (pm : PaddingMode)
    (hA : mclose V.geometry.mat.A T.mat.A)
    (hb : T.baseshape = tbase V.tensor)
    (ht : vclose V.geometry.mat.t T.mat.t) :
    V.resample_like T mo pm = .ok ⟨V.tensor, T⟩ := by
  unfold Volume.resample_like
  rw [if_pos hA, if_pos ⟨hb, ht⟩]
  unfold mkVolume
  rw [if_pos hb]

/-- The translation of a voxel-shift by zero is unchanged (within tolerance,
exactly). -/
theorem shiftVoxel_zero_t (g : Geom) :
    vclose g.mat.t (g.shiftVoxel (⟨0, 0, 0⟩ : IVec3).toVec).mat.t := by
  unfold Geom.shiftVoxel IVec3.toVec
  norm_num [mulVec_zero, Vec3.add]
  exact vclose_refl _

/-! ### Structure of the fast crop/pad result -/

/-- The crop-then-pad composite computed by the fast path, as one function of
the rounded lower shift. -/
def fastCropPad (t : T4) (tgtShape : IVec3) (lower : IVec3) : T4 :=
  let n := tbase t
  let upper := lower.add (tgtShape.sub n)
  let sW := resolveIdx (tW t) (max lower.x 0)
  let eW := resolveIdx (tW t) (min upper.x 0 + n.x)
  let sH := resolveIdx (tH t) (max lower.y 0)
  let eH := resolveIdx (tH t) (min upper.y 0 + n.y)
  let sD := resolveIdx (tD t) (max lower.z 0)
  let eD := resolveIdx (tD t) (min upper.z 0 + n.z)
  let cropped := t.map (fun v =>
    (cropList sW (eW - sW) v).map (fun p =>
      (cropList sH (eH - sH) p).map (fun r => cropList sD (eD - sD) r)))
  pad4 cropped .constant (eH - sH) (eD - sD)
    (-lower.x).toNat upper.x.toNat (-lower.y).toNat upper.y.toNat
    (-lower.z).toNat upper.z.toNat

/-- Padding by zero on every side is the identity, for any mode. -/
theorem pad4_zero (t : T4) (mode : PadMode) (h d : ℕ) :
    pad4 t mode h d 0 0 0 0 0 0 = t := by
  unfold pad4 padAxis padBefore padAfter
  cases mode <;> simp [List.map_id']

/-- With `zeros` padding the fast path always succeeds and computes
`fastCropPad`. -/
theorem fastShift_zeros (t : T4) (tgtShape lower : IVec3) :
    fastShift t tgtShape lower .zeros = .ok (fastCropPad t tgtShape lower) := by
  unfold fastShift fastCropPad toPadMode
  dsimp only
  split
  · next hz =>
      obtain ⟨h1, h2, h3, h4, h5, h6⟩ := hz
      rw [h1, h2, h3, h4, h5, h6, pad4_zero]
  · rw [if_neg (by simp)]

/-- Shape statement for one channel. -/
def Dims3 (v : T3) (w h d : ℕ) : Prop :=
  v.length = w ∧ ∀ p ∈ v, p.length = h ∧ ∀ r ∈ p, r.length = d

/-- Shape statement for a full tensor: `c` channels of shape `(w, h, d)`. -/
def HasDims (t : T4) (c w h d : ℕ) : Prop :=
  t.length = c ∧ ∀ v ∈ t, Dims3 v w h d

theorem hasDims_of_rect (t : T4) (hr : Rect t) :
    HasDims t t.length (tW t) (tH t) (tD t) := ⟨rfl, hr⟩

/-- A tensor with at least one channel, row, and plane reads its shape back
from the nesting. -/
theorem tbase_of_hasDims (t : T4) (c w h d : ℕ) (hd : HasDims t c w h d)
    (hc : 0 < c) (hw : 0 < w) (hh : 0 < h) :
    tbase t = ⟨(w : ℤ), (h : ℤ), (d : ℤ)⟩ ∧ Rect t ∧ t ≠ [] := by
  obtain ⟨hlen, hall⟩ := hd
  have htne : t ≠ [] := by
    intro he
    rw [he] at hlen
    simp at hlen
    omega
  obtain ⟨v, tv, rfl⟩ := List.exists_cons_of_ne_nil htne
  obtain ⟨hvw, hvall⟩ := hall v (List.mem_cons_self _ _)
  have hvne : v ≠ [] := by
    intro he
    rw [he] at hvw
    simp at hvw
    omega
  obtain ⟨p, vp, rfl⟩ := List.exists_cons_of_ne_nil hvne
  obtain ⟨hph, hpall⟩ := hvall p (List.mem_cons_self _ _)
  have hpne : p ≠ [] := by
    intro he
    rw [he] at hph
    simp at hph
    omega
  obtain ⟨r, pr, rfl⟩ := List.exists_cons_of_ne_nil hpne
  have hrd := (hpall r (List.mem_cons_self _ _))
  have hW : tW (((r :: pr) :: vp) :: tv) = w := by simpa [tW] using hvw
  have hH : tH (((r :: pr) :: vp) :: tv) = h := by simpa [tH] using hph
  have hD : tD (((r :: pr) :: vp) :: tv) = d := by simpa [tD] using hrd
  refine ⟨?_, ?_, by simp⟩
  · simp [tbase, hW, hH, hD]
  · intro v' hv'
    obtain ⟨hvw', hvall'⟩ := hall v' hv'
    refine ⟨by rw [hW, hvw'], ?_⟩
    intro p' hp'
    obtain ⟨hph', hpall'⟩ := hvall' p' hp'
    refine ⟨by rw [hH, hph'], ?_⟩
    intro r' hr'
    rw [hD]
    exact hpall' r' hr'

theorem mem_of_mem_cropList (a len : ℕ) (l : List α) (x : α)
    (hx : x ∈ cropList a len l) : x ∈ l :=
  List.mem_of_mem_drop (List.mem_of_mem_take hx)

theorem cropList_length (a len : ℕ) (l : List α) :
    (cropList a len l).length = min len (l.length - a) := by
  simp [cropList]

/-- Cropping each axis yields the cropped dimensions. -/
theorem hasDims_crop (t : T4) (c w h d : ℕ) (hd : HasDims t c w h d)
    (sW lW sH lH sD lD : ℕ) :
    HasDims (t.map (fun v => (cropList sW lW v).map (fun p =>
        (cropList sH lH p).map (fun r => cropList sD lD r))))
      c (min lW (w - sW)) (min lH (h - sH)) (min lD (d - sD)) := by
  obtain ⟨hlen, hall⟩ := hd
  refine ⟨by simp [hlen], ?_⟩
  intro v' hv'
  simp only [List.mem_map] at hv'
  obtain ⟨v, hv, rfl⟩ := hv'
  obtain ⟨hvw, hvall⟩ := hall v hv
  refine ⟨by simp [cropList_length, hvw], ?_⟩
  intro p' hp'
  simp only [List.mem_map] at hp'
  obtain ⟨p, hp, rfl⟩ := hp'
  obtain ⟨hph, hpall⟩ := hvall p (mem_of_mem_cropList _ _ _ _ hp)
  refine ⟨by simp [cropList_length, hph], ?_⟩
  intro r' hr'
  simp only [List.mem_map] at hr'
  obtain ⟨r, hr, rfl⟩ := hr'
  rw [cropList_length, hpall r (mem_of_mem_cropList _ _ _ _ hr)]

/-- Constant padding yields the padded dimensions (the zero blocks are built
from the explicitly passed inner extents). -/
theorem hasDims_pad_const (t : T4) (c w h d : ℕ) (hd : HasDims t c w h d)
    (aW bW aH bH aD bD : ℕ) :
    HasDims (pad4 t .constant h d aW bW aH bH aD bD)
      c (aW + w + bW) (aH + h + bH) (aD + d + bD) := by
  obtain ⟨hlen, hall⟩ := hd
  unfold pad4
  dsimp only
  constructor
  · simp only [padAxis, padBefore, padAfter, List.length_append, List.length_replicate,
      List.length_map]
    omega
  · intro v' hv'
    simp only [List.mem_map] at hv'
    obtain ⟨v, hv, rfl⟩ := hv'
    obtain ⟨hvw, hvall⟩ := hall v hv
    constructor
    · simp only [padAxis, padBefore, padAfter, List.length_append,
        List.length_replicate, List.length_map]
      omega
    · intro p' hp'
      simp only [padAxis, padBefore, padAfter, List.mem_append, List.mem_map,
        List.mem_replicate] at hp'
      rcases hp' with (⟨-, rfl⟩ | ⟨p, hp, rfl⟩) | ⟨-, rfl⟩
      · refine ⟨by simp, ?_⟩
        intro r' hr'
        obtain ⟨-, rfl⟩ := List.mem_replicate.mp hr'
        simp
      · obtain ⟨hph, hpall⟩ := hvall p hp
        constructor
        · simp only [padAxis, padBefore, padAfter, List.length_append,
            List.length_replicate, List.length_map]
          omega
        · intro r' hr'
          simp only [padAxis, padBefore, padAfter, List.mem_append, List.mem_map,
            List.mem_replicate] at hr'
          rcases hr' with (⟨-, rfl⟩ | ⟨r, hrp, rfl⟩) | ⟨-, rfl⟩
          · simp
          · have hrd := hpall r hrp
            simp only [List.length_append, List.length_replicate]
            omega
          · simp
      · refine ⟨by simp, ?_⟩
        intro r' hr'
        obtain ⟨-, rfl⟩ := List.mem_replicate.mp hr'
        simp

theorem resolveIdx_eq (n : ℕ) (x : ℤ) (h0 : 0 ≤ x) (hn : x ≤ (n : ℤ)) :
    resolveIdx n x = x.toNat := by
  unfold resolveIdx
  split <;> omega

theorem tbase_x (t : T4) : (tbase t).x = (tW t : ℤ) := rfl

theorem tbase_y (t : T4) : (tbase t).y = (tH t : ℤ) := rfl

theorem tbase_z (t : T4) : (tbase t).z = (tD t : ℤ) := rfl

/-- Under the in-range side conditions, the fast crop/pad result has exactly
the target spatial shape (and stays rectangular and nonempty). -/
theorem fastCropPad_dims (t : T4) (tgt lower : IVec3) (hr : Rect t) (hC : t ≠ [])
    (hlx : lower.x ≤ (tW t : ℤ)) (h0x : 0 ≤ lower.x + tgt.x) (hTx : 1 ≤ tgt.x)
    (hly : lower.y ≤ (tH t : ℤ)) (h0y : 0 ≤ lower.y + tgt.y) (hTy : 1 ≤ tgt.y)
    (hlz : lower.z ≤ (tD t : ℤ)) (h0z : 0 ≤ lower.z + tgt.z) (hTz : 1 ≤ tgt.z) :
    tbase (fastCropPad t tgt lower) = tgt ∧ Rect (fastCropPad t tgt lower) ∧
      fastCropPad t tgt lower ≠ [] := by
  have hd0 := hasDims_of_rect t hr
  unfold fastCropPad
  simp only [IVec3.add, IVec3.sub, tbase_x, tbase_y, tbase_z]
  rw [resolveIdx_eq (tW t) (max lower.x 0) (by omega) (by omega),
      resolveIdx_eq (tW t) (min (lower.x + (tgt.x - (tW t : ℤ))) 0 + (tW t : ℤ))
        (by omega) (by omega),
      resolveIdx_eq (tH t) (max lower.y 0) (by omega) (by omega),
      resolveIdx_eq (tH t) (min (lower.y + (tgt.y - (tH t : ℤ))) 0 + (tH t : ℤ))
        (by omega) (by omega),
      resolveIdx_eq (tD t) (max lower.z 0) (by omega) (by omega),
      resolveIdx_eq (tD t) (min (lower.z + (tgt.z - (tD t : ℤ))) 0 + (tD t : ℤ))
        (by omega) (by omega)]
  have hcrop := hasDims_crop t t.length (tW t) (tH t) (tD t) hd0
    (max lower.x 0).toNat
    ((min (lower.x + (tgt.x - (tW t : ℤ))) 0 + (tW t : ℤ)).toNat - (max lower.x 0).toNat)
    (max lower.y 0).toNat
    ((min (lower.y + (tgt.y - (tH t : ℤ))) 0 + (tH t : ℤ)).toNat - (max lower.y 0).toNat)
    (max lower.z 0).toNat
    ((min (lower.z + (tgt.z - (tD t : ℤ))) 0 + (tD t : ℤ)).toNat - (max lower.z 0).toNat)
  rw [show min ((min (lower.x + (tgt.x - (tW t : ℤ))) 0 + (tW t : ℤ)).toNat
        - (max lower.x 0).toNat) (tW t - (max lower.x 0).toNat)
      = (min (lower.x + (tgt.x - (tW t : ℤ))) 0 + (tW t : ℤ)).toNat
        - (max lower.x 0).toNat by omega,
      show min ((min (lower.y + (tgt.y - (tH t : ℤ))) 0 + (tH t : ℤ)).toNat
        - (max lower.y 0).toNat) (tH t - (max lower.y 0).toNat)
      = (min (lower.y + (tgt.y - (tH t : ℤ))) 0 + (tH t : ℤ)).toNat
        - (max lower.y 0).toNat by omega,
      show min ((min (lower.z + (tgt.z - (tD t : ℤ))) 0 + (tD t : ℤ)).toNat
        - (max lower.z 0).toNat) (tD t - (max lower.z 0).toNat)
      = (min (lower.z + (tgt.z - (tD t : ℤ))) 0 + (tD t : ℤ)).toNat
        - (max lower.z 0).toNat by omega] at hcrop
  have hpad := hasDims_pad_const _ _ _ _ _ hcrop
    (-lower.x).toNat (lower.x + (tgt.x - (tW t : ℤ))).toNat
    (-lower.y).toNat (lower.y + (tgt.y - (tH t : ℤ))).toNat
    (-lower.z).toNat (lower.z + (tgt.z - (tD t : ℤ))).toNat
  obtain ⟨hbase, hrect, hne⟩ := tbase_of_hasDims _ _ _ _ _ hpad
    (by simpa using List.length_pos.mpr hC) (by omega) (by omega)
  refine ⟨?_, hrect, hne⟩
  rw [hbase]
  have : tgt = ⟨tgt.x, tgt.y, tgt.z⟩ := rfl
  rw [this]
  simp only [IVec3.mk.injEq]
  omega

/-- Full evaluation of `resample_like` against an integer-voxel-shifted target
with `zeros` padding: when the identity check fails and the shift is in range,
the result is exactly the crop/pad composite with the target geometry
attached. -/
theorem resample_like_shifted (V : Volume) (news sh : IVec3) (mo : IMode)
    (hrect : Rect V.tensor) (hC : V.tensor ≠ [])
    (hdet : V.geometry.mat.A.det ≠ 0)
    (hnid : ¬(news = tbase V.tensor ∧
      vclose V.geometry.mat.t (V.geometry.shiftVoxel sh.toVec).mat.t))
    (hlx : sh.x ≤ (tW V.tensor : ℤ)) (h0x : 0 ≤ sh.x + news.x) (hTx : 1 ≤ news.x)
    (hly : sh.y ≤ (tH V.tensor : ℤ)) (h0y : 0 ≤ sh.y + news.y) (hTy : 1 ≤ news.y)
    (hlz : sh.z ≤ (tD V.tensor : ℤ)) (h0z : 0 ≤ sh.z + news.z) (hTz : 1 ≤ news.z) :
    V.resample_like ⟨news, (V.geometry.shiftVoxel sh.toVec).mat⟩ mo .zeros
      = .ok ⟨fastCropPad V.tensor news sh,
             ⟨news, (V.geometry.shiftVoxel sh.toVec).mat⟩⟩ := by
  have hinv := affInv_of_det V.geometry.mat hdet
  have hdelta : ((AffMat.mk (Mat3.smul (1 / V.geometry.mat.A.det) V.geometry.mat.A.adj)
      (((Mat3.smul (1 / V.geometry.mat.A.det) V.geometry.mat.A.adj).mulVec
        V.geometry.mat.t).neg)).comp
        (V.geometry.shiftVoxel sh.toVec).mat).apply Vec3.zero = sh.toVec :=
    shift_delta V.geometry.mat _ sh.toVec hdet hinv
  rw [resample_like_fastpath V ⟨news, (V.geometry.shiftVoxel sh.toVec).mat⟩
    _ mo .zeros (mclose_refl _) hnid hinv
    (by rw [hdelta, vround_toVec]; exact vclose_refl _)]
  rw [hdelta, vround_toVec, fastShift_zeros]
  unfold mkVolume
  dsimp only
  rw [if_pos]
  exact ((fastCropPad_dims V.tensor news sh hrect hC hlx h0x hTx hly h0y hTy
    hlz h0z hTz).1).symm

theorem IVec3.add_zero (u : IVec3) : u.add ⟨0, 0, 0⟩ = u := by
  cases u
  simp [IVec3.add]

/-- Full evaluation of one `pad` call: with an invertible linear part and the
rounded voxel delta keeping every axis positive, `pad` succeeds and grows the
baseshape by exactly the rounded delta, preserving the linear part. -/
theorem pad_eval (V : Volume) (delta : Vec3)
    (hrect : Rect V.tensor) (hC : V.tensor ≠ [])
    (hdet : V.geometry.mat.A.det ≠ 0)
    (hnx : 1 ≤ (tW V.tensor : ℤ) + (vround (delta.div V.geometry.spacing)).x)
    (hny : 1 ≤ (tH V.tensor : ℤ) + (vround (delta.div V.geometry.spacing)).y)
    (hnz : 1 ≤ (tD V.tensor : ℤ) + (vround (delta.div V.geometry.spacing)).z) :
    ∃ W : Volume, V.pad delta = .ok W ∧ W.wfGeo ∧ Rect W.tensor ∧ W.tensor ≠ [] ∧
      W.geometry.mat.A = V.geometry.mat.A ∧
      tbase W.tensor = (tbase V.tensor).add (vround (delta.div V.geometry.spacing)) := by
  unfold Volume.pad
  dsimp only
  by_cases hr0 : vround (delta.div V.geometry.spacing) = (⟨0, 0, 0⟩ : IVec3)
  · rw [hr0, IVec3.add_zero]
    rw [show (⟨((tbase V.tensor).x - (tbase V.tensor).x) / 2,
          ((tbase V.tensor).y - (tbase V.tensor).y) / 2,
          ((tbase V.tensor).z - (tbase V.tensor).z) / 2⟩ : IVec3) = ⟨0, 0, 0⟩ by
        simp]
    refine ⟨⟨V.tensor, ⟨tbase V.tensor, (V.geometry.shiftVoxel
      (⟨0, 0, 0⟩ : IVec3).toVec).mat⟩⟩, ?_, rfl, hrect, hC, rfl, ?_⟩
    · exact resample_like_identity V _ _ _ (mclose_refl _) rfl
        (shiftVoxel_zero_t V.geometry)
    · rfl
  · have hb := resample_like_shifted V ((tbase V.tensor).add
      (vround (delta.div V.geometry.spacing)))
      ⟨((tbase V.tensor).x - ((tbase V.tensor).add
          (vround (delta.div V.geometry.spacing))).x) / 2,
       ((tbase V.tensor).y - ((tbase V.tensor).add
          (vround (delta.div V.geometry.spacing))).y) / 2,
       ((tbase V.tensor).z - ((tbase V.tensor).add
          (vround (delta.div V.geometry.spacing))).z) / 2⟩
      .nearest hrect hC hdet
      (by
        intro hcontra
        apply hr0
        have h1 := hcontra.1
        cases htb : tbase V.tensor
        rw [htb] at h1
        cases hrv : vround (delta.div V.geometry.spacing)
        rw [hrv] at h1
        simp only [IVec3.add, IVec3.mk.injEq] at h1
        simp only [IVec3.mk.injEq]
        omega)
      (by simp only [IVec3.add, tbase_x]; omega)
      (by simp only [IVec3.add, tbase_x]; omega)
      (by simp only [IVec3.add, tbase_x]; omega)
      (by simp only [IVec3.add, tbase_y]; omega)
      (by simp only [IVec3.add, tbase_y]; omega)
      (by simp only [IVec3.add, tbase_y]; omega)
      (by simp only [IVec3.add, tbase_z]; omega)
      (by simp only [IVec3.add, tbase_z]; omega)
      (by simp only [IVec3.add, tbase_z]; omega)
    have hdims := fastCropPad_dims V.tensor ((tbase V.tensor).add
      (vround (delta.div V.geometry.spacing)))
      ⟨((tbase V.tensor).x - ((tbase V.tensor).add
          (vround (delta.div V.geometry.spacing))).x) / 2,
       ((tbase V.tensor).y - ((tbase V.tensor).add
          (vround (delta.div V.geometry.spacing))).y) / 2,
       ((tbase V.tensor).z - ((tbase V.tensor).add
          (vround (delta.div V.geometry.spacing))).z) / 2⟩
      hrect hC
      (by simp only [IVec3.add, tbase_x]; omega)
      (by simp only [IVec3.add, tbase_x]; omega)
      (by simp only [IVec3.add, tbase_x]; omega)
      (by simp only [IVec3.add, tbase_y]; omega)
      (by simp only [IVec3.add, tbase_y]; omega)
      (by simp only [IVec3.add, tbase_y]; omega)
      (by simp only [IVec3.add, tbase_z]; omega)
      (by simp only [IVec3.add, tbase_z]; omega)
      (by simp only [IVec3.add, tbase_z]; omega)
    refine ⟨_, hb, ?_, hdims.2.1, hdims.2.2, rfl, hdims.1⟩
    exact hdims.1.symm

theorem ratSqrt_one : ratSqrt 1 = 1 := by
  unfold ratSqrt
  rw [show (1 : ℚ).num.toNat = 1 from rfl, show (1 : ℚ).den = 1 from rfl,
    show natSqrtB 1 = 1 from by decide]
  norm_num

/-- Spacing of a geometry with identity linear part. -/
theorem spacing_ident (b : IVec3) (t : Vec3) :
    Geom.spacing ⟨b, ⟨⟨1, 0, 0, 0, 1, 0, 0, 0, 1⟩, t⟩⟩ = ⟨1, 1, 1⟩ := by
  unfold Geom.spacing Geom.colNormSq
  norm_num [ratSqrt_one]

/-- Spacing only depends on the linear part. -/
theorem spacing_congr (g1 g2 : Geom) (h : g1.mat.A = g2.mat.A) :
    g1.spacing = g2.spacing := by
  unfold Geom.spacing Geom.colNormSq
  rw [h]

theorem vec3_neg_div (u v : Vec3) : (u.neg).div v = (u.div v).neg := by
  cases u
  cases v
  simp only [Vec3.neg, Vec3.div, Vec3.mk.injEq]
  exact ⟨neg_div _ _, neg_div _ _, neg_div _ _⟩

theorem vround_negv (u : Vec3) :
    vround u.neg = ⟨-(vround u).x, -(vround u).y, -(vround u).z⟩ := by
  cases u
  simp [vround, Vec3.neg, rround_neg]

/-! ### Claim C8 -/

/-- Claim C8 as stated is false: padding by a world delta so negative that the
intermediate shape would be negative makes `pad` fail outright (the crop/pad
result cannot match the negative target baseshape), so `pad(delta).pad(-delta)`
produces no volume at all. -/
theorem C8_pad_counterexample :
    (Volume.pad ⟨[[[[7]]]], ⟨⟨1, 1, 1⟩, ⟨⟨1, 0, 0, 0, 1, 0, 0, 0, 1⟩, ⟨0, 0, 0⟩⟩⟩⟩
        ⟨-3, -3, -3⟩).bind (fun U => U.pad ⟨3, 3, 3⟩)
      = .error .shape := by
  unfold Volume.pad
  norm_num [spacing_ident, Vec3.div, vround, rround, tbase, tW, tH, tD, IVec3.add,
    Geom.shiftVoxel, Mat3.mulVec, Vec3.add, IVec3.toVec]
  rw [resample_like_fastpath
    ⟨[[[[7]]]], ⟨⟨1, 1, 1⟩, ⟨⟨1, 0, 0, 0, 1, 0, 0, 0, 1⟩, ⟨0, 0, 0⟩⟩⟩⟩
    ⟨⟨-2, -2, -2⟩, ⟨⟨1, 0, 0, 0, 1, 0, 0, 0, 1⟩, ⟨1, 1, 1⟩⟩⟩
    ⟨⟨1, 0, 0, 0, 1, 0, 0, 0, 1⟩, ⟨0, 0, 0⟩⟩ .nearest .zeros (mclose_refl _)
    (fun h => absurd h.1 (by decide)) id_affine_inv
    (by norm_num [AffMat.comp, AffMat.apply, Mat3.mul, Mat3.mulVec, Vec3.add,
      Vec3.zero, vround, rround, IVec3.toVec, vclose, qclose, tol])]
  norm_num [vround, rround, AffMat.comp, AffMat.apply, Mat3.mul, Mat3.mulVec,
    Vec3.add, Vec3.zero]
  simp [fastShift, tbase, tW, tH, tD, resolveIdx, cropList, IVec3.add, IVec3.sub,
    Int.toNat_of_nonpos, mkVolume, Except.bind]

/-- Claim C8 (amended): for a volume with data, positive extent and an
invertible linear part, and a world delta whose rounded voxel delta
`round(delta/spacing)` keeps every axis of the intermediate shape positive,
`V.pad(delta).pad(-delta)` succeeds and restores the original baseshape (the
rounding is symmetric: `round(-x) = -round(x)` under half-even rounding). -/
theorem C8_pad_roundtrip_amended (V : Volume) (delta : Vec3)
    (hwf : V.wf) (hC : V.tensor ≠ [])
    (hdet : V.geometry.mat.A.det ≠ 0)
    (hpx : 0 < tW V.tensor) (hpy : 0 < tH V.tensor) (hpz : 0 < tD V.tensor)
    (hnx : 1 ≤ (tW V.tensor : ℤ) + (vround (delta.div V.geometry.spacing)).x)
    (hny : 1 ≤ (tH V.tensor : ℤ) + (vround (delta.div V.geometry.spacing)).y)
    (hnz : 1 ≤ (tD V.tensor : ℤ) + (vround (delta.div V.geometry.spacing)).z) :
    ∃ W1 W2 : Volume, V.pad delta = .ok W1 ∧ W1.pad delta.neg = .ok W2 ∧
      tbase W2.tensor = tbase V.tensor := by
  obtain ⟨W1, hok1, hwf1, hrect1, hC1, hA1, hsh1⟩ :=
    pad_eval V delta hwf.2 hC hdet hnx hny hnz
  have hsp : W1.geometry.spacing = V.geometry.spacing := spacing_congr _ _ hA1
  have hr2 : vround (delta.neg.div W1.geometry.spacing)
      = ⟨-(vround (delta.div V.geometry.spacing)).x,
         -(vround (delta.div V.geometry.spacing)).y,
         -(vround (delta.div V.geometry.spacing)).z⟩ := by
    rw [hsp, vec3_neg_div, vround_negv]
  have hdet1 : W1.geometry.mat.A.det ≠ 0 := by rw [hA1]; exact hdet
  have hx1 : (tW W1.tensor : ℤ) = (tW V.tensor : ℤ)
      + (vround (delta.div V.geometry.spacing)).x := by
    have := congrArg IVec3.x hsh1
    simpa [tbase_x, IVec3.add] using this
  have hy1 : (tH W1.tensor : ℤ) = (tH V.tensor : ℤ)
      + (vround (delta.div V.geometry.spacing)).y := by
    have := congrArg IVec3.y hsh1
    simpa [tbase_y, IVec3.add] using this
  have hz1 : (tD W1.tensor : ℤ) = (tD V.tensor : ℤ)
      + (vround (delta.div V.geometry.spacing)).z := by
    have := congrArg IVec3.z hsh1
    simpa [tbase_z, IVec3.add] using this
  obtain ⟨W2, hok2, hwf2, hrect2, hC2, hA2, hsh2⟩ :=
    pad_eval W1 delta.neg hrect1 hC1 hdet1
      (by rw [hr2]; dsimp only; omega) (by rw [hr2]; dsimp only; omega)
      (by rw [hr2]; dsimp only; omega)
  refine ⟨W1, W2, hok1, hok2, ?_⟩
  rw [hsh2, hr2, hsh1]
  cases htb : tbase V.tensor
  cases hrv : vround (delta.div V.geometry.spacing)
  simp [IVec3.add]

/-- Witness for the amended C8 at a concrete unit volume padded by one world
unit and back. -/
theorem C8_witness :
    ∃ W1 W2 : Volume,
      Volume.pad ⟨[[[[7]]]], ⟨⟨1, 1, 1⟩, ⟨⟨1, 0, 0, 0, 1, 0, 0, 0, 1⟩, ⟨0, 0, 0⟩⟩⟩⟩
        ⟨1, 1, 1⟩ = .ok W1 ∧
      W1.pad (⟨1, 1, 1⟩ : Vec3).neg = .ok W2 ∧
      tbase W2.tensor
        = tbase (⟨[[[[7]]]],
            ⟨⟨1, 1, 1⟩, ⟨⟨1, 0, 0, 0, 1, 0, 0, 0, 1⟩, ⟨0, 0, 0⟩⟩⟩⟩ : Volume).tensor :=
  C8_pad_roundtrip_amended
    ⟨[[[[7]]]], ⟨⟨1, 1, 1⟩, ⟨⟨1, 0, 0, 0, 1, 0, 0, 0, 1⟩, ⟨0, 0, 0⟩⟩⟩⟩ ⟨1, 1, 1⟩
    (by constructor
        · rfl
        · decide)
    (by simp)
    (by norm_num [Mat3.det])
    (by decide) (by decide) (by decide)
    (by norm_num [spacing_ident, Vec3.div, vround, rround, tW])
    (by norm_num [spacing_ident, Vec3.div, vround, rround, tH])
    (by norm_num [spacing_ident, Vec3.div, vround, rround, tD])

/-! ### Claim C1 -/

/-- Spec-side formula of claim C1, written from the claim's words: for an
integer voxel shift `d` (so `lower = round(delta) = d` and
`upper = lower + target_shape - source_shape = d`), crop the data to
`[clamp(lower, 0), clamp(upper, max=0) + source_shape)` per axis, then
zero-pad by `|clamp(lower, max=0)|` before and `clamp(upper, min=0)` after. -/
def specShiftCropPad (t : T4) (d : IVec3) : T4 :=
  let n := tbase t
  let cropped := t.map (fun v =>
    (cropList (max d.x 0).toNat ((min d.x 0 + n.x) - max d.x 0).toNat v).map (fun p =>
      (cropList (max d.y 0).toNat ((min d.y 0 + n.y) - max d.y 0).toNat p).map (fun r =>
        cropList (max d.z 0).toNat ((min d.z 0 + n.z) - max d.z 0).toNat r)))
  pad4 cropped .constant
    ((min d.y 0 + n.y) - max d.y 0).toNat ((min d.z 0 + n.z) - max d.z 0).toNat
    (-d.x).toNat d.x.toNat (-d.y).toNat d.y.toNat (-d.z).toNat d.z.toNat

/-- The full-extent crop is the identity on a rectangular tensor. -/
theorem crop4_full (t : T4) (hr : Rect t) :
    t.map (fun v => (cropList 0 (tW t) v).map (fun p =>
      (cropList 0 (tH t) p).map (fun r => cropList 0 (tD t) r))) = t := by
  conv_rhs => rw [← List.map_id t]
  apply List.map_congr_left
  intro v hv
  obtain ⟨hvw, hvall⟩ := hr v hv
  have hcv : cropList 0 (tW t) v = v := by
    unfold cropList
    rw [List.drop_zero, ← hvw, List.take_length]
  rw [hcv]
  show v.map _ = id v
  conv_rhs => rw [show id v = v from rfl, ← List.map_id v]
  apply List.map_congr_left
  intro p hp
  obtain ⟨hph, hpall⟩ := hvall p hp
  have hcp : cropList 0 (tH t) p = p := by
    unfold cropList
    rw [List.drop_zero, ← hph, List.take_length]
  rw [hcp]
  show p.map _ = id p
  conv_rhs => rw [show id p = p from rfl, ← List.map_id p]
  apply List.map_congr_left
  intro r hrm
  unfold cropList
  rw [List.drop_zero, ← hpall r hrm, List.take_length]
  rfl

/-- The spec formula at shift zero returns the tensor unchanged. -/
theorem specShiftCropPad_zero (t : T4) (hr : Rect t) :
    specShiftCropPad t ⟨0, 0, 0⟩ = t := by
  unfold specShiftCropPad
  dsimp only
  rw [show ((max (0 : ℤ) 0).toNat) = 0 by decide,
      show ((min (0 : ℤ) 0 + (tbase t).x) - max 0 0).toNat = tW t by
        rw [tbase_x]; omega,
      show ((min (0 : ℤ) 0 + (tbase t).y) - max 0 0).toNat = tH t by
        rw [tbase_y]; omega,
      show ((min (0 : ℤ) 0 + (tbase t).z) - max 0 0).toNat = tD t by
        rw [tbase_z]; omega,
      show ((-(0 : ℤ)).toNat) = 0 by decide,
      show ((0 : ℤ).toNat) = 0 by decide]
  rw [pad4_zero, crop4_full t hr]

/-- Within range the python-resolved fast-path crop/pad coincides with the
claim's direct crop/pad formula. -/
theorem fastCropPad_eq_spec (t : T4) (d : IVec3)
    (hx1 : -(tW t : ℤ) ≤ d.x) (hx2 : d.x ≤ (tW t : ℤ))
    (hy1 : -(tH t : ℤ) ≤ d.y) (hy2 : d.y ≤ (tH t : ℤ))
    (hz1 : -(tD t : ℤ) ≤ d.z) (hz2 : d.z ≤ (tD t : ℤ)) :
    fastCropPad t (tbase t) d = specShiftCropPad t d := by
  unfold fastCropPad specShiftCropPad
  simp only [IVec3.add, IVec3.sub, tbase_x, tbase_y, tbase_z, sub_self, add_zero]
  rw [resolveIdx_eq (tW t) (max d.x 0) (by omega) (by omega),
      resolveIdx_eq (tW t) (min d.x 0 + (tW t : ℤ)) (by omega) (by omega),
      resolveIdx_eq (tH t) (max d.y 0) (by omega) (by omega),
      resolveIdx_eq (tH t) (min d.y 0 + (tH t : ℤ)) (by omega) (by omega),
      resolveIdx_eq (tD t) (max d.z 0) (by omega) (by omega),
      resolveIdx_eq (tD t) (min d.z 0 + (tD t : ℤ)) (by omega) (by omega)]
  rw [show (min d.x 0 + (tW t : ℤ)).toNat - (max d.x 0).toNat
        = ((min d.x 0 + (tW t : ℤ)) - max d.x 0).toNat by omega,
      show (min d.y 0 + (tH t : ℤ)).toNat - (max d.y 0).toNat
        = ((min d.y 0 + (tH t : ℤ)) - max d.y 0).toNat by omega,
      show (min d.z 0 + (tD t : ℤ)).toNat - (max d.z 0).toNat
        = ((min d.z 0 + (tD t : ℤ)) - max d.z 0).toNat by omega]

/-- Claim C1 as stated is false: with a tiny-spacing geometry
(`1e-5` in the first column) the world translation induced by the nonzero
integer voxel shift `(1,0,0)` stays below the `1e-4` identity tolerance, so
`resample_like` takes the no-op identity branch and returns the source data
unchanged, while the claim's explicit crop/pad formula shifts the data. -/
theorem C1_fastpath_counterexample :
    Volume.resample_like
      ⟨[[[[1]], [[2]]]],
        ⟨⟨2, 1, 1⟩, ⟨⟨1/100000, 0, 0, 0, 1, 0, 0, 0, 1⟩, ⟨0, 0, 0⟩⟩⟩⟩
      (Geom.shiftVoxel ⟨⟨2, 1, 1⟩, ⟨⟨1/100000, 0, 0, 0, 1, 0, 0, 0, 1⟩, ⟨0, 0, 0⟩⟩⟩
        (⟨1, 0, 0⟩ : IVec3).toVec) .linear .zeros
      = .ok ⟨[[[[1]], [[2]]]],
             Geom.shiftVoxel ⟨⟨2, 1, 1⟩, ⟨⟨1/100000, 0, 0, 0, 1, 0, 0, 0, 1⟩, ⟨0, 0, 0⟩⟩⟩
               (⟨1, 0, 0⟩ : IVec3).toVec⟩ ∧
    specShiftCropPad [[[[1]], [[2]]]] ⟨1, 0, 0⟩ = [[[[2]], [[0]]]] ∧
    ([[[[1]], [[2]]]] : T4) ≠ [[[[2]], [[0]]]] := by
  refine ⟨?_, ?_, ?_⟩
  · exact resample_like_identity _ _ _ _ (mclose_refl _) rfl
      (by norm_num [Geom.shiftVoxel, Mat3.mulVec, Vec3.add, IVec3.toVec, vclose,
        qclose, tol])
  · norm_num [specShiftCropPad, tbase, tbase_x, tbase_y, tbase_z, tW, tH, tD,
      cropList, pad4, padAxis, padBefore, padAfter, List.replicate, Int.toNat_of_nonpos]
  · norm_num

/-- Claim C1 (amended): for a well-formed nonempty volume of positive extent
with invertible linear part, and an integer voxel shift `d` with
`|d| ≤ source_shape` per axis, such that either `d = 0` or the induced world
translation change exceeds the 1e-4 identity tolerance, `resample_like`
against the voxel-shifted geometry takes the fast path and returns data
bit-identical to the claim's explicit crop/pad formula, with the target
geometry attached and no interpolation performed. -/
theorem C1_fastpath_equivalence (V : Volume) (d : IVec3) (mo : IMode)
    (hwf : V.wf) (hC : V.tensor ≠ [])
    (hdet : V.geometry.mat.A.det ≠ 0)
    (hpx : 0 < tW V.tensor) (hpy : 0 < tH V.tensor) (hpz : 0 < tD V.tensor)
    (hx1 : -(tW V.tensor : ℤ) ≤ d.x) (hx2 : d.x ≤ (tW V.tensor : ℤ))
    (hy1 : -(tH V.tensor : ℤ) ≤ d.y) (hy2 : d.y ≤ (tH V.tensor : ℤ))
    (hz1 : -(tD V.tensor : ℤ) ≤ d.z) (hz2 : d.z ≤ (tD V.tensor : ℤ))
    (hnd : d = ⟨0, 0, 0⟩ ∨
      ¬ vclose V.geometry.mat.t (V.geometry.shiftVoxel d.toVec).mat.t) :
    V.resample_like (V.geometry.shiftVoxel d.toVec) mo .zeros
      = .ok ⟨specShiftCropPad V.tensor d, V.geometry.shiftVoxel d.toVec⟩ := by
  rcases hnd with rfl | hne
  · rw [resample_like_identity V
      (V.geometry.shiftVoxel (⟨0, 0, 0⟩ : IVec3).toVec) mo .zeros (mclose_refl _)
      (by
        show V.geometry.baseshape = tbase V.tensor
        exact hwf.1)
      (shiftVoxel_zero_t _)]
    rw [specShiftCropPad_zero V.tensor hwf.2]
  · have htg : V.geometry.shiftVoxel d.toVec
        = ⟨tbase V.tensor, (V.geometry.shiftVoxel d.toVec).mat⟩ := by
      unfold Geom.shiftVoxel
      rw [hwf.1]
    have hmain := resample_like_shifted V (tbase V.tensor) d mo hwf.2 hC hdet
      (fun h => hne h.2)
      hx2 (by rw [tbase_x]; omega) (by rw [tbase_x]; omega)
      hy2 (by rw [tbase_y]; omega) (by rw [tbase_y]; omega)
      hz2 (by rw [tbase_z]; omega) (by rw [tbase_z]; omega)
    rw [htg, hmain, fastCropPad_eq_spec V.tensor d hx1 hx2 hy1 hy2 hz1 hz2]

/-- Witness for the amended C1 at a concrete two-voxel volume shifted by one
voxel (the induced world translation exceeds the tolerance). -/
theorem C1_witness :
    Volume.resample_like
      ⟨[[[[1]], [[2]]]], ⟨⟨2, 1, 1⟩, ⟨⟨1, 0, 0, 0, 1, 0, 0, 0, 1⟩, ⟨0, 0, 0⟩⟩⟩⟩
      (Geom.shiftVoxel ⟨⟨2, 1, 1⟩, ⟨⟨1, 0, 0, 0, 1, 0, 0, 0, 1⟩, ⟨0, 0, 0⟩⟩⟩
        (⟨1, 0, 0⟩ : IVec3).toVec) .linear .zeros
      = .ok ⟨specShiftCropPad [[[[1]], [[2]]]] ⟨1, 0, 0⟩,
             Geom.shiftVoxel ⟨⟨2, 1, 1⟩, ⟨⟨1, 0, 0, 0, 1, 0, 0, 0, 1⟩, ⟨0, 0, 0⟩⟩⟩
               (⟨1, 0, 0⟩ : IVec3).toVec⟩ :=
  C1_fastpath_equivalence
    ⟨[[[[1]], [[2]]]], ⟨⟨2, 1, 1⟩, ⟨⟨1, 0, 0, 0, 1, 0, 0, 0, 1⟩, ⟨0, 0, 0⟩⟩⟩⟩
    ⟨1, 0, 0⟩ .linear
    (by constructor
        · rfl
        · decide)
    (by simp)
    (by norm_num [Mat3.det])
    (by decide) (by decide) (by decide)
    (by decide) (by decide) (by decide) (by decide) (by decide) (by decide)
    (Or.inr (by norm_num [Geom.shiftVoxel, Mat3.mulVec, Vec3.add, IVec3.toVec,
      vclose, qclose, tol]))
